import Mathlib

/-!
Verification development for the `thermo` flash / activity-coefficient library
(`thermo/activity.py`, `thermo/nrtl.py`).

Embedding conventions:
* Python floats are idealised as rationals `ℚ` for the flash / K-value stack
  (no transcendental functions appear there except through oracles), and as
  reals `ℝ` for the activity-coefficient formulas, which use `exp` / `log`.
* Optional arguments (Python `None` defaults) are `Option` values; Python's
  numeric truthiness test `if x:` on an optional float is `truthyQ`.
* Raised exceptions are `Except.error` values of type `PyErr`; each
  constructor names the Python exception (or the spec's error taxonomy kind)
  it stands for.
* The external root finders `newton` / `brenth` of `fluids.numerics`, the
  epsilon-bracket helpers, the `IS_PYPY` flag, and the float operations
  `exp` and `**0.5` that leave `ℚ` are abstracted as an oracle bundle
  `Solvers`; theorems quantify over all oracles, so they hold for any
  behaviour of the external solver toolkit.
-/

/-- Python exception / failure kinds raised by the library (§7 error taxonomy
plus the concrete Python exception classes that can escape). -/
inductive PyErr where
  /-- Python `TypeError` from arithmetic on `None` (a missing optional argument). -/
  | typeError : PyErr
  /-- Python `ZeroDivisionError` from a float division by exactly zero. -/
  | zeroDivision : PyErr
  /-- Python `IndexError` from indexing past the end of a list. -/
  | indexError : PyErr
  /-- InvalidInput: the descriptive wrapper of `K_value` or a length-check failure. -/
  | invalidInput : PyErr
  /-- Python `ValueError("Provide two of P, T, and VF")`. -/
  | provideTwo : PyErr
  /-- InfeasibleState: `Exception('Solution does not exist')` in `flash`. -/
  | infeasibleNoSolution : PyErr
  /-- InfeasibleState: `Exception('V_over_F is negative!')` in `flash`. -/
  | infeasibleNegativeVF : PyErr
  /-- InternalLimitation: analytical solution requested outside 2-3 components. -/
  | internalLimitation : PyErr
  /-- Python `min()` / `max()` / tuple unpacking on a list of the wrong size. -/
  | valueError : PyErr
  /-- ConvergenceFailure: a bracketed solver failed to locate a root. -/
  | convergenceError : PyErr
  /-- An uncaught failure of the open `newton` solver. -/
  | solverError : PyErr
  /-- Python `Exception('Incorrect Method input')` in `flash_inner_loop`. -/
  | incorrectMethod : PyErr
  /-- Artificial fuel exhaustion of the embedding's bounded recursion; the
  source recursion depth is at most three, so every theorem supplies ample
  fuel and this value is never reached on the modelled paths. -/
  | outOfFuel : PyErr
deriving DecidableEq, Repr

/-- Python numeric truthiness of an optional float: `None` and `0.0` are
falsy, every other value is truthy. -/
def truthyQ (o : Option ℚ) : Bool :=
  match o with
  | none => false
  | some x => decide (x ≠ 0)

/-- Extract a required operand; a `None` operand in Python float arithmetic
raises `TypeError`. -/
def need (o : Option ℚ) : Except PyErr ℚ :=
  match o with
  | some x => Except.ok x
  | none => Except.error PyErr.typeError

/-- Python float division: raises `ZeroDivisionError` on a zero denominator. -/
def pydiv (a b : ℚ) : Except PyErr ℚ :=
  if b = 0 then Except.error PyErr.zeroDivision else Except.ok (a / b)

/-- Model of `K_value(P=None, Psat=None, phi_l=None, phi_g=None, gamma=None, Poynting=1)`
of `thermo/activity.py`.  The branch tests `if gamma:` / `if phi_l:` are
Python truthiness tests; a `TypeError` from a missing companion operand is
caught and re-raised as the descriptive InvalidInput failure, while a
`ZeroDivisionError` escapes the `except TypeError` handler unchanged. -/
def K_value (P Psat phi_l phi_g gamma : Option ℚ) (Poynting : ℚ := 1) :
    Except PyErr ℚ :=
  let r : Except PyErr ℚ :=
    if truthyQ gamma then
      if truthyQ phi_l then do
        let g ← need gamma
        let ps ← need Psat
        let fl ← need phi_l
        let fg ← need phi_g
        let p ← need P
        pydiv (g * ps * fl * Poynting) (fg * p)
      else do
        let g ← need gamma
        let ps ← need Psat
        let p ← need P
        pydiv (g * ps * Poynting) p
    else if truthyQ phi_l then do
      let fl ← need phi_l
      let fg ← need phi_g
      pydiv fl fg
    else do
      let ps ← need Psat
      let p ← need P
      pydiv ps p
  match r with
  | Except.error PyErr.typeError => Except.error PyErr.invalidInput
  | x => x

/-- Phase labels returned by `identify_phase`. -/
inductive Phase where
  | s : Phase
  | l : Phase
  | g : Phase
deriving DecidableEq, Repr

/-- Model of `identify_phase(T, P, Tm=None, Tb=None, Tc=None, Psat=None)` of
`thermo/activity.py`.  Every guard `if Tm and ...` is a Python truthiness
test on the optional float followed by the comparison; `None` is the
"phase cannot be determined" return. -/
def identify_phase (T P : ℚ) (Tm Tb Tc Psat : Option ℚ) : Option Phase :=
  if truthyQ Tm ∧ T ≤ Tm.getD 0 then some Phase.s
  else if truthyQ Tc ∧ T ≥ Tc.getD 0 then some Phase.g
  else if truthyQ Psat then
    if P ≤ Psat.getD 0 then some Phase.g else some Phase.l
  else if truthyQ Tb then
    if 90000 < P ∧ P < 110000 then
      if T < Tb.getD 0 then some Phase.l else some Phase.g
    else if 110000 < P ∧ T ≤ Tb.getD 0 then some Phase.l
    else none
  else none

/-- Oracle bundle abstracting the external `fluids.numerics` toolkit (§6): the
open `newton` solver in its plain, bounded, first-derivative and
second-derivative calling forms (`none` models non-convergence, i.e. a raised
solver exception), the bracketed `brenth` solver (`none` models a failure to
bracket a root), the constants `one_epsilon_larger` / `one_epsilon_smaller`,
the `IS_PYPY` flag, and the float operations `exp` and `**0.5`, which leave
`ℚ` and are therefore abstracted as unspecified functions.  Theorems quantify
over the whole bundle. -/
structure Solvers where
  newton : (ℚ → ℚ) → ℚ → Option ℚ
  newtonBounded : (ℚ → ℚ) → ℚ → ℚ → ℚ → Option ℚ
  newtonFp : (ℚ → ℚ) → (ℚ → ℚ) → ℚ → Option ℚ
  newtonFp2 : (ℚ → ℚ) → (ℚ → ℚ) → (ℚ → ℚ) → ℚ → Option ℚ
  brenth : (ℚ → ℚ) → ℚ → ℚ → Option ℚ
  oneEpsLarger : ℚ
  oneEpsSmaller : ℚ
  sqrtApprox : ℚ → ℚ
  expApprox : ℚ → ℚ
  isPyPy : Bool

/-- Effectful map over a list (a Python list comprehension whose element
expression may raise): evaluates left to right, propagating the first
raised exception. -/
def mapME {a b : Type} (l : List a) (f : a → Except PyErr b) :
    Except PyErr (List b) :=
  match l with
  | [] => Except.ok []
  | x :: xs => do
    let y ← f x
    let ys ← mapME xs f
    pure (y :: ys)

/-- List indexing `l[i]`; out of range raises `IndexError`. -/
def idx (l : List ℚ) (i : ℕ) : Except PyErr ℚ :=
  match l.get? i with
  | some x => Except.ok x
  | none => Except.error PyErr.indexError

/-- Model of `Rachford_Rice_flash_error(V_over_F, zs, Ks)`: the Rachford-Rice
objective `sum(zi*(Ki-1)/(1+V_over_F*(Ki-1)) for Ki, zi in zip(Ks, zs))`. -/
def Rachford_Rice_flash_error (V_over_F : ℚ) (zs Ks : List ℚ) : ℚ :=
  (List.zipWith (fun Ki zi => zi * (Ki - 1) / (1 + V_over_F * (Ki - 1))) Ks zs).sum

/-- The liquid-phase composition assembled by every Rachford-Rice solver:
`xs = [zi/(1.+V_over_F*(Ki-1.)) for zi, Ki in zip(zs, Ks)]`. -/
def RR_xs (zs Ks : List ℚ) (V_over_F : ℚ) : List ℚ :=
  List.zipWith (fun zi Ki => zi / (1 + V_over_F * (Ki - 1))) zs Ks

/-- The vapor-phase composition assembled by every Rachford-Rice solver:
`ys = [Ki*xi for xi, Ki in zip(xs, Ks)]`. -/
def RR_ys (xs Ks : List ℚ) : List ℚ :=
  List.zipWith (fun xi Ki => Ki * xi) xs Ks

/-- Model of `Rachford_Rice_solution(zs, Ks, fprime=False, fprime2=False)` of
`thermo/activity.py`.  The initial bracket and guess follow Li-Johns-Ahmadi;
the open solver attempt falls back to the bracketed solver on any failure;
float division is idealised as total `ℚ` division (the bracket formulas
divide by zero only at `Kmin = 1` or `Kmax = 1`, where CPython would raise;
no claim concerns those inputs). -/
def Rachford_Rice_solution (S : Solvers) (zs Ks : List ℚ)
    (fprime : Bool := false) (fprime2 : Bool := false) :
    Except PyErr (ℚ × List ℚ × List ℚ) :=
  match Ks.head? with
  | none => Except.error PyErr.valueError
  | some K0 =>
    let Kmin := Ks.foldl min K0
    let Kmax := Ks.foldl max K0
    match zs.get? (Ks.indexOf Kmax) with
    | none => Except.error PyErr.indexError
    | some z_of_Kmax =>
      let V_over_F_min := ((Kmax - Kmin) * z_of_Kmax - (1 - Kmin)) /
        ((1 - Kmin) * (Kmax - 1))
      let V_over_F_max := 1 / (1 - Kmin)
      let V_over_F_min2 := if V_over_F_min > 0 then V_over_F_min else 0
      let V_over_F_max2 := if V_over_F_max < 1 then V_over_F_max else 1
      let x0 := (V_over_F_min2 + V_over_F_max2) / 2
      let K_minus_1 := Ks.map (fun Ki => Ki - 1)
      let zs_k_minus_1 := List.zipWith (fun zi Kim1 => zi * Kim1) zs K_minus_1
      let err := fun V_over_F =>
        (List.zipWith (fun num Kim1 => num / (1 + V_over_F * Kim1))
          zs_k_minus_1 K_minus_1).sum
      let zs_k_minus_1_2 :=
        List.zipWith (fun first Kim1 => -first * Kim1) zs_k_minus_1 K_minus_1
      let fprime_obj := fun V_over_F =>
        (List.zipWith (fun num Kim1 =>
          num / ((V_over_F * Kim1 + 1) * (V_over_F * Kim1 + 1)))
          zs_k_minus_1_2 K_minus_1).sum
      let zs_k_minus_1_3 :=
        List.zipWith (fun second Kim1 => -2 * second * Kim1) zs_k_minus_1_2 K_minus_1
      let fprime2_obj := fun V_over_F =>
        (List.zipWith (fun num Kim1 =>
          num / ((V_over_F * Kim1 + 1) * (V_over_F * Kim1 + 1) * (V_over_F * Kim1 + 1)))
          zs_k_minus_1_3 K_minus_1).sum
      let attempt : Option ℚ :=
        if fprime && fprime2 then S.newtonFp2 err fprime_obj fprime2_obj x0
        else if fprime then S.newtonFp err fprime_obj x0
        else S.newtonBounded err x0
          (V_over_F_min * S.oneEpsLarger) (V_over_F_max * S.oneEpsSmaller)
      match attempt with
      | some V_over_F =>
        Except.ok (V_over_F, RR_xs zs Ks V_over_F, RR_ys (RR_xs zs Ks V_over_F) Ks)
      | none =>
        match S.brenth err (V_over_F_max * S.oneEpsSmaller)
            (V_over_F_min * S.oneEpsLarger) with
        | some V_over_F =>
          Except.ok (V_over_F, RR_xs zs Ks V_over_F, RR_ys (RR_xs zs Ks V_over_F) Ks)
        | none => Except.error PyErr.convergenceError

/-- Model of `Rachford_Rice_solution_numpy(zs, Ks)`: the vectorized variant; the same
bracket, an unbounded open-solver attempt, the same bracketed fallback, and
elementwise array assembly of `xs` and `ys`. -/
def Rachford_Rice_solution_numpy (S : Solvers) (zs Ks : List ℚ) :
    Except PyErr (ℚ × List ℚ × List ℚ) :=
  match Ks.head? with
  | none => Except.error PyErr.valueError
  | some K0 =>
    let Kmin := Ks.foldl min K0
    let Kmax := Ks.foldl max K0
    match zs.get? (Ks.indexOf Kmax) with
    | none => Except.error PyErr.indexError
    | some z_of_Kmax =>
      let V_over_F_min := ((Kmax - Kmin) * z_of_Kmax - (1 - Kmin)) /
        ((1 - Kmin) * (Kmax - 1))
      let V_over_F_max := 1 / (1 - Kmin)
      let V_over_F_min2 := max 0 V_over_F_min
      let V_over_F_max2 := min 1 V_over_F_max
      let x0 := (V_over_F_min2 + V_over_F_max2) / 2
      let K_minus_1 := Ks.map (fun Ki => Ki - 1)
      let zs_k_minus_1 := List.zipWith (fun zi Kim1 => zi * Kim1) zs K_minus_1
      let err := fun V_over_F =>
        (List.zipWith (fun num Kim1 => num / (1 + V_over_F * Kim1))
          zs_k_minus_1 K_minus_1).sum
      let attempt : Option ℚ :=
        match S.newton err x0 with
        | some v => some v
        | none => S.brenth err (V_over_F_max * S.oneEpsSmaller)
            (V_over_F_min * S.oneEpsLarger)
      match attempt with
      | some V_over_F =>
        Except.ok (V_over_F, RR_xs zs Ks V_over_F, RR_ys (RR_xs zs Ks V_over_F) Ks)
      | none => Except.error PyErr.convergenceError

/-- Descending lexicographic comparison on `(K, z)` pairs, as used by
`sorted(zip(Ks, zs), reverse=True)`. -/
def pyDescPair (a b : ℚ × ℚ) : Bool :=
  decide (b.1 < a.1) || (decide (a.1 = b.1) && decide (b.2 ≤ a.2))

/-- Model of `Li_Johns_Ahmadi_solution(zs, Ks)` of `thermo/activity.py`: sorts the
`(K, z)` pairs descending, solves for the liquid mole fraction `x1` of the
species with the largest K value, validating the open solver's root against
the bracket and the derived vapor fraction against `[0, 1]`, with a
bracketed fallback; then assembles `xs`, `ys` from the original ordering. -/
def Li_Johns_Ahmadi_solution (S : Solvers) (zs Ks : List ℚ) :
    Except PyErr (ℚ × List ℚ × List ℚ) :=
  let p := (Ks.zip zs).mergeSort pyDescPair
  let Ks_sorted := p.map Prod.fst
  let zs_sorted := p.map Prod.snd
  match Ks_sorted.head?, zs_sorted.head?, Ks_sorted.getLast? with
  | some k1, some z1, some kn =>
    let x_min := (1 - kn) / (k1 - kn) * z1
    let x_max := (1 - kn) / (k1 - kn)
    let x_min2 := max 0 x_min
    let x_max2 := min 1 x_max
    let x_guess := (x_min2 + x_max2) / 2
    let kn_m_1 := kn - 1
    let k1_m_1 := k1 - 1
    let t1 := (k1 - kn) / (kn - 1)
    let middle := ((Ks_sorted.zip zs_sorted).drop 1).take (zs.length - 2)
    let objective := fun x1 =>
      1 + t1 * x1 + (middle.map (fun kz =>
        (kz.1 - kn) / kn_m_1 * (kz.2 * k1_m_1 * x1 /
          ((kz.1 - 1) * z1 + (k1 - kz.1) * x1)))).sum
    let attempt : Option ℚ :=
      match S.newton objective x_guess with
      | some x1 =>
        if x_min2 ≤ x1 ∧ x1 ≤ x_max2 ∧
            0 ≤ (-x1 + z1) / (x1 * (k1 - 1)) ∧ (-x1 + z1) / (x1 * (k1 - 1)) ≤ 1
          then some x1 else none
      | none => none
    let solved : Option ℚ :=
      match attempt with
      | some x1 => some x1
      | none => S.brenth objective x_min x_max
    match solved with
    | some x1 =>
      let V_over_F := (-x1 + z1) / (x1 * (k1 - 1))
      Except.ok (V_over_F, RR_xs zs Ks V_over_F, RR_ys (RR_xs zs Ks V_over_F) Ks)
    | none => Except.error PyErr.convergenceError
  | _, _, _ => Except.error PyErr.indexError

/-- Prefix (non-radical) part of the hard-coded 3-component analytical
Rachford-Rice vapor fraction of `flash_inner_loop`, transcribed term by term
from the source. -/
def VF3head (z1 z2 z3 K1 K2 K3 : ℚ) : ℚ :=
  -K1*K2*z1 / 2 - K1*K2*z2 / 2 - K1*K3*z1 / 2 - K1*K3*z3 / 2 + K1*z1 + K1*z2 / 2 +
    K1*z3 / 2 - K2*K3*z2 / 2 - K2*K3*z3 / 2 + K2*z1 / 2 + K2*z2 + K2*z3 / 2 +
    K3*z1 / 2 + K3*z2 / 2 + K3*z3 - z1 - z2 - z3

/-- Radicand of the `**0.5` term of the 3-component analytical vapor
fraction, transcribed term by term from the source. -/
def VF3disc (z1 z2 z3 K1 K2 K3 : ℚ) : ℚ :=
  K1^2*K2^2*z1^2 + 2*K1^2*K2^2*z1*z2 + K1^2*K2^2*z2^2 - 2*K1^2*K2*K3*z1^2 -
    2*K1^2*K2*K3*z1*z2 - 2*K1^2*K2*K3*z1*z3 + 2*K1^2*K2*K3*z2*z3 - 2*K1^2*K2*z1*z2 +
    2*K1^2*K2*z1*z3 - 2*K1^2*K2*z2^2 - 2*K1^2*K2*z2*z3 + K1^2*K3^2*z1^2 +
    2*K1^2*K3^2*z1*z3 + K1^2*K3^2*z3^2 + 2*K1^2*K3*z1*z2 - 2*K1^2*K3*z1*z3 -
    2*K1^2*K3*z2*z3 - 2*K1^2*K3*z3^2 + K1^2*z2^2 + 2*K1^2*z2*z3 + K1^2*z3^2 -
    2*K1*K2^2*K3*z1*z2 + 2*K1*K2^2*K3*z1*z3 - 2*K1*K2^2*K3*z2^2 - 2*K1*K2^2*K3*z2*z3 -
    2*K1*K2^2*z1^2 - 2*K1*K2^2*z1*z2 - 2*K1*K2^2*z1*z3 + 2*K1*K2^2*z2*z3 +
    2*K1*K2*K3^2*z1*z2 - 2*K1*K2*K3^2*z1*z3 - 2*K1*K2*K3^2*z2*z3 - 2*K1*K2*K3^2*z3^2 +
    4*K1*K2*K3*z1^2 + 4*K1*K2*K3*z1*z2 + 4*K1*K2*K3*z1*z3 + 4*K1*K2*K3*z2^2 +
    4*K1*K2*K3*z2*z3 + 4*K1*K2*K3*z3^2 + 2*K1*K2*z1*z2 - 2*K1*K2*z1*z3 -
    2*K1*K2*z2*z3 - 2*K1*K2*z3^2 - 2*K1*K3^2*z1^2 - 2*K1*K3^2*z1*z2 - 2*K1*K3^2*z1*z3 +
    2*K1*K3^2*z2*z3 - 2*K1*K3*z1*z2 + 2*K1*K3*z1*z3 - 2*K1*K3*z2^2 - 2*K1*K3*z2*z3 +
    K2^2*K3^2*z2^2 + 2*K2^2*K3^2*z2*z3 + K2^2*K3^2*z3^2 + 2*K2^2*K3*z1*z2 -
    2*K2^2*K3*z1*z3 - 2*K2^2*K3*z2*z3 - 2*K2^2*K3*z3^2 + K2^2*z1^2 + 2*K2^2*z1*z3 +
    K2^2*z3^2 - 2*K2*K3^2*z1*z2 + 2*K2*K3^2*z1*z3 - 2*K2*K3^2*z2^2 - 2*K2*K3^2*z2*z3 -
    2*K2*K3*z1^2 - 2*K2*K3*z1*z2 - 2*K2*K3*z1*z3 + 2*K2*K3*z2*z3 + K3^2*z1^2 +
    2*K3^2*z1*z2 + K3^2*z2^2

/-- Denominator of the 3-component analytical vapor fraction, transcribed
term by term from the source. -/
def VF3den (z1 z2 z3 K1 K2 K3 : ℚ) : ℚ :=
  K1*K2*K3*z1 + K1*K2*K3*z2 + K1*K2*K3*z3 - K1*K2*z1 - K1*K2*z2 - K1*K2*z3 -
    K1*K3*z1 - K1*K3*z2 - K1*K3*z3 + K1*z1 + K1*z2 + K1*z3 - K2*K3*z1 - K2*K3*z2 -
    K2*K3*z3 + K2*z1 + K2*z2 + K2*z3 + K3*z1 + K3*z2 + K3*z3 - z1 - z2 - z3

/-- The liquid composition assembled by the Analytical branch of
`flash_inner_loop`: `[zi/(1.+V_over_F*(Ki-1.)) for zi, Ki in zip(zs, Ks) if
zi != 0.0]` — note the filter dropping species with a zero overall mole
fraction. -/
def analytical_xs (zs Ks : List ℚ) (V_over_F : ℚ) : List ℚ :=
  ((zs.zip Ks).filter (fun p => decide (p.1 ≠ 0))).map
    (fun p => p.1 / (1 + V_over_F * (p.2 - 1)))

/-- The six named methods of `flash_inner_loop`. -/
inductive FlashMethod where
  | analytical : FlashMethod
  | secant : FlashMethod
  | nr : FlashMethod
  | halley : FlashMethod
  | numpy : FlashMethod
  | lja : FlashMethod
deriving DecidableEq, Repr

/-- Model of `flash_inner_loop_list_methods(l)` of `thermo/activity.py`. -/
def flash_inner_loop_list_methods (isPyPy : Bool) (l : ℕ) : List FlashMethod :=
  (if l = 2 ∨ l = 3 then [FlashMethod.analytical] else []) ++
  (if l ≥ 10 ∧ isPyPy = false then [FlashMethod.numpy] else []) ++
  (if l ≥ 2 then
    [FlashMethod.secant, FlashMethod.nr, FlashMethod.halley] ++
    (if l < 10 ∧ isPyPy = false then [FlashMethod.numpy] else [])
   else []) ++
  (if l ≥ 3 then [FlashMethod.lja] else [])

/-- Model of `flash_inner_loop(zs, Ks, Method=None)` of `thermo/activity.py`
(the `AvailableMethods=True` calling form is `flash_inner_loop_list_methods`).
Automatic selection takes the analytical solution below four components, the
vectorized variant for ten or more components off PyPy, and the secant
Rachford-Rice solver otherwise.  The 2-component analytical solution falls
back to the secant solver on a zero denominator (`except ZeroDivisionError`);
methods are an enumerated type, so the source's unrecognized-method failure
has no counterpart here. -/
def flash_inner_loop (S : Solvers) (zs Ks : List ℚ)
    (Method : Option FlashMethod := none) : Except PyErr (ℚ × List ℚ × List ℚ) :=
  let M := match Method with
    | some m => m
    | none =>
      if zs.length < 4 then FlashMethod.analytical
      else if S.isPyPy = false ∧ zs.length ≥ 10 then FlashMethod.numpy
      else FlashMethod.secant
  match M with
  | FlashMethod.secant => Rachford_Rice_solution S zs Ks false false
  | FlashMethod.analytical =>
    match zs, Ks with
    | [z1, z2], [K1, K2] =>
      let den := K1*K2*z1 + K1*K2*z2 - K1*z1 - K1*z2 - K2*z1 - K2*z2 + z1 + z2
      if den = 0 then Rachford_Rice_solution S zs Ks false false
      else
        let V_over_F := (-K1*z1 - K2*z2 + z1 + z2) / den
        Except.ok (V_over_F, analytical_xs zs Ks V_over_F,
          RR_ys (analytical_xs zs Ks V_over_F) Ks)
    | [z1, z2, z3], [K1, K2, K3] =>
      let V_over_F := (VF3head z1 z2 z3 K1 K2 K3 -
        S.sqrtApprox (VF3disc z1 z2 z3 K1 K2 K3) / 2) / VF3den z1 z2 z3 K1 K2 K3
      Except.ok (V_over_F, analytical_xs zs Ks V_over_F,
        RR_ys (analytical_xs zs Ks V_over_F) Ks)
    | _, _ =>
      -- unpacking `K1, K2 = Ks` (resp. three) fails when the K list does not
      -- match the 2- or 3-species shape; other sizes hit the explicit raise
      if zs.length = 2 ∨ zs.length = 3 then Except.error PyErr.valueError
      else Except.error PyErr.internalLimitation
  | FlashMethod.numpy => Rachford_Rice_solution_numpy S zs Ks
  | FlashMethod.nr => Rachford_Rice_solution S zs Ks true false
  | FlashMethod.halley => Rachford_Rice_solution S zs Ks true true
  | FlashMethod.lja => Li_Johns_Ahmadi_solution S zs Ks

/-- Modelled from the spec: `none_and_length_check` of `thermo.utils` is not
part of the provided sources; per §7 it validates that the supplied arrays
are present with consistent lengths ("mismatched array lengths across
`zs`/`Psats`/`fugacities`/`gammas`" is InvalidInput).  Lists in this
embedding cannot contain `None`, so the check reduces to length
consistency. -/
def none_and_length_check (ls : List (List ℚ)) : Bool :=
  match ls with
  | [] => true
  | l :: rest => rest.all (fun m => decide (m.length = l.length))

/-- Model of `flash(P, zs, Psats)` of `thermo/activity.py`: per-species Raoult K
values via `K_value`, the two Rachford-Rice feasibility sums (both of which
the source evaluates, so a zero K raises `ZeroDivisionError` before the
feasibility verdict), the inner-loop dispatch, and the negative-vapor-
fraction guard. -/
def flash (S : Solvers) (P : ℚ) (zs Psats : List ℚ) :
    Except PyErr (List ℚ × List ℚ × ℚ) := do
  if ¬ none_and_length_check [zs, Psats] then throw PyErr.invalidInput
  let Ks ← mapME (List.range zs.length) (fun i => do
    let ps ← idx Psats i
    K_value (some P) (some ps) none none none 1)
  let sum1terms ← mapME (List.range Ks.length) (fun i => do
    let z ← idx zs i
    let K ← idx Ks i
    pure (z * K))
  let sum2terms ← mapME (List.range Ks.length) (fun i => do
    let z ← idx zs i
    let K ← idx Ks i
    pydiv z K)
  if sum1terms.sum < 1 ∨ sum2terms.sum < 1 then throw PyErr.infeasibleNoSolution
  let r ← flash_inner_loop S zs Ks none
  if r.1 < 0 then throw PyErr.infeasibleNegativeVF
  pure (r.2.1, r.2.2, r.1)

/-- A value a Python function hands back to its caller: either a float, or —
in the buggy branches of `bubble_at_T` — a caught exception object returned
(not raised) as the result. -/
inductive PyRet where
  | num : ℚ → PyRet
  | excObj : PyErr → PyRet
deriving DecidableEq, Repr

/-- Model of `dew_at_T(zs, Psats, fugacities=None, gammas=None)` of
`thermo/activity.py`: four overloads by which optional arrays are supplied;
every caught failure is re-raised (either as the descriptive length-check
failure or as the original exception). -/
def dew_at_T (zs Psats : List ℚ) (fugacities gammas : Option (List ℚ)) :
    Except PyErr PyRet :=
  match fugacities, gammas with
  | none, none =>
    let body : Except PyErr ℚ := do
      let ts ← mapME (List.range zs.length) (fun i => do
        let z ← idx zs i
        let p ← idx Psats i
        pydiv z p)
      pydiv 1 ts.sum
    match body with
    | Except.ok v => Except.ok (PyRet.num v)
    | Except.error e =>
      if ¬ none_and_length_check [Psats] then Except.error PyErr.invalidInput
      else Except.error e
  | none, some gs =>
    let body : Except PyErr ℚ := do
      let ts ← mapME (List.range zs.length) (fun i => do
        let z ← idx zs i
        let p ← idx Psats i
        let g ← idx gs i
        pydiv z (p * g))
      pydiv 1 ts.sum
    match body with
    | Except.ok v => Except.ok (PyRet.num v)
    | Except.error e =>
      if ¬ none_and_length_check [Psats, gs] then Except.error PyErr.invalidInput
      else Except.error e
  | some fs, none =>
    let body : Except PyErr ℚ := do
      let ts ← mapME (List.range zs.length) (fun i => do
        let z ← idx zs i
        let f ← idx fs i
        let p ← idx Psats i
        pydiv (z * f) p)
      pydiv 1 ts.sum
    match body with
    | Except.ok v => Except.ok (PyRet.num v)
    | Except.error e =>
      if ¬ none_and_length_check [Psats, fs] then Except.error PyErr.invalidInput
      else Except.error e
  | some fs, some gs =>
    let body : Except PyErr ℚ := do
      let ts ← mapME (List.range zs.length) (fun i => do
        let z ← idx zs i
        let f ← idx fs i
        let p ← idx Psats i
        let g ← idx gs i
        pydiv (z * f) (p * g))
      pydiv 1 ts.sum
    match body with
    | Except.ok v => Except.ok (PyRet.num v)
    | Except.error e =>
      if ¬ none_and_length_check [zs, Psats, fs, gs] then Except.error PyErr.invalidInput
      else Except.error e

/-- Model of `bubble_at_T(zs, Psats, fugacities=None, gammas=None)` of
`thermo/activity.py`.  The two fugacity-bearing branches end their exception
handlers with `return e` — the caught exception object is RETURNED as the
function's result (modelled as `Except.ok (PyRet.excObj e)`) — while the two
other branches re-raise (`raise e`). -/
def bubble_at_T (zs Psats : List ℚ) (fugacities gammas : Option (List ℚ)) :
    Except PyErr PyRet :=
  match fugacities, gammas with
  | none, none =>
    let body : Except PyErr ℚ := do
      let ts ← mapME (List.range zs.length) (fun i => do
        let z ← idx zs i
        let p ← idx Psats i
        pure (z * p))
      pure ts.sum
    match body with
    | Except.ok v => Except.ok (PyRet.num v)
    | Except.error e =>
      if ¬ none_and_length_check [Psats] then Except.error PyErr.invalidInput
      else Except.error e
  | none, some gs =>
    let body : Except PyErr ℚ := do
      let ts ← mapME (List.range zs.length) (fun i => do
        let z ← idx zs i
        let p ← idx Psats i
        let g ← idx gs i
        pure (z * p * g))
      pure ts.sum
    match body with
    | Except.ok v => Except.ok (PyRet.num v)
    | Except.error e =>
      if ¬ none_and_length_check [Psats, gs] then Except.error PyErr.invalidInput
      else Except.error e
  | some fs, none =>
    let body : Except PyErr ℚ := do
      let ts ← mapME (List.range zs.length) (fun i => do
        let z ← idx zs i
        let p ← idx Psats i
        let f ← idx fs i
        pydiv (z * p) f)
      pure ts.sum
    match body with
    | Except.ok v => Except.ok (PyRet.num v)
    | Except.error e =>
      if ¬ none_and_length_check [Psats, fs] then Except.error PyErr.invalidInput
      else Except.ok (PyRet.excObj e)
  | some fs, some gs =>
    let body : Except PyErr ℚ := do
      let ts ← mapME (List.range zs.length) (fun i => do
        let z ← idx zs i
        let p ← idx Psats i
        let g ← idx gs i
        let f ← idx fs i
        pydiv (z * p * g) f)
      pure ts.sum
    match body with
    | Except.ok v => Except.ok (PyRet.num v)
    | Except.error e =>
      if ¬ none_and_length_check [zs, Psats, fs, gs] then Except.error PyErr.invalidInput
      else Except.ok (PyRet.excObj e)

/-- Model of `Wilson_K_value(T, P, Tc, Pc, omega)` of `thermo/activity.py`:
`Pc/P*exp(5.37*(1.0+omega)*(1.0-Tc/T))`, with `exp` the oracle's float
exponential and division idealised as total. -/
def Wilson_K_value (S : Solvers) (T P Tc Pc omega : ℚ) : ℚ :=
  Pc / P * S.expApprox (537/100 * (1 + omega) * (1 - Tc / T))

/-- The closed-form bubble pressure accumulated by the `T, VF=0` branch of
`flash_wilson`: `P_bubble = sum(zs[i]*Pcs[i]*exp(5.37*(1+omegas[i])*
(1-Tcs[i]/T)))`, with index errors raised as in the source. -/
def flash_wilson_Pbubble (S : Solvers) (zs Tcs Pcs omegas : List ℚ) (T : ℚ) :
    Except PyErr ℚ := do
  let ts ← mapME (List.range zs.length) (fun i => do
    let z ← idx zs i
    let pc ← idx Pcs i
    let tc ← idx Tcs i
    let om ← idx omegas i
    pure (z * pc * S.expApprox (537/100 * (1 + om) * (1 - tc / T))))
  pure ts.sum

/-- The dew-pressure reciprocal sum of the `T, VF=1` branch of
`flash_wilson`: `P_dew = 1/sum(zs[i]/(Pcs[i]*exp(...)))` (total division). -/
def flash_wilson_Pdew (S : Solvers) (zs Tcs Pcs omegas : List ℚ) (T : ℚ) :
    Except PyErr ℚ := do
  let ts ← mapME (List.range zs.length) (fun i => do
    let z ← idx zs i
    let pc ← idx Pcs i
    let tc ← idx Tcs i
    let om ← idx omegas i
    pure (z / (pc * S.expApprox (537/100 * (1 + om) * (1 - tc / T)))))
  pure (1 / ts.sum)

/-- Totalised dew-pressure residual `to_solve` closure of the `P, VF=1`
branch (the source's closure indexes the same arrays; the absolute value of
the trial temperature is taken first). -/
def flash_wilson_dew_residual (S : Solvers) (zs Tcs Pcs omegas : List ℚ)
    (P : ℚ) (T_guess : ℚ) : ℚ :=
  let Tg := |T_guess|
  1 / (List.zipWith (fun z tpo => z / (tpo : ℚ)) zs
    (List.zipWith (fun pc tcom => pc * S.expApprox (537/100 * (1 + tcom.2) *
      (1 - tcom.1 / Tg))) Pcs (Tcs.zip omegas))).sum - P

/-- Totalised bubble-pressure residual `to_solve` closure of the `P, VF=0`
branch. -/
def flash_wilson_bubble_residual (S : Solvers) (zs Tcs Pcs omegas : List ℚ)
    (P : ℚ) (T_guess : ℚ) : ℚ :=
  let Tg := |T_guess|
  (List.zipWith (fun z tpo => z * tpo) zs
    (List.zipWith (fun pc tcom => pc * S.expApprox (537/100 * (1 + tcom.2) *
      (1 - tcom.1 / Tg))) Pcs (Tcs.zip omegas))).sum - P

/-- Model of `flash_wilson(zs, Tcs, Pcs, omegas, T=None, P=None, VF=None)` of
`thermo/activity.py`: the seven solve modes, dispatched in source order.
The recursion (each sub-case re-enters with a more determined pair of
specifications, reaching the `T`-and-`P` base case within three calls) is
expressed with a fuel parameter; theorems quantify over all sufficient fuel.
The residual closures handed to the external solvers are totalised (an
exception escaping a closure inside the external solver is beyond the oracle
abstraction; no claim depends on those paths).  `T_MAX = 50000`. -/
def flash_wilson (S : Solvers) :
    ℕ → List ℚ → List ℚ → List ℚ → List ℚ → Option ℚ → Option ℚ → Option ℚ →
    Except PyErr (ℚ × ℚ × ℚ × List ℚ × List ℚ)
  | 0, _, _, _, _, _, _, _ => Except.error PyErr.outOfFuel
  | Nat.succ fuel, zs, Tcs, Pcs, omegas, Tq, Pq, VFq =>
    match Tq, Pq, VFq with
    | some T, some P, _ => do
      let Ks ← mapME (List.range zs.length) (fun i => do
        let tc ← idx Tcs i
        let pc ← idx Pcs i
        let om ← idx omegas i
        pure (Wilson_K_value S T P tc pc om))
      let r ← flash_inner_loop S zs Ks none
      pure (T, P, r.1, r.2.1, r.2.2)
    | some T, none, some vf =>
      if vf = 0 then do
        let P_bubble ← flash_wilson_Pbubble S zs Tcs Pcs omegas T
        flash_wilson S fuel zs Tcs Pcs omegas (some T) (some P_bubble) none
      else if vf = 1 then do
        let P_dew ← flash_wilson_Pdew S zs Tcs Pcs omegas T
        flash_wilson S fuel zs Tcs Pcs omegas (some T) (some P_dew) none
      else do
        let rlow ← flash_wilson S fuel zs Tcs Pcs omegas (some T) none (some 1)
        let rhigh ← flash_wilson S fuel zs Tcs Pcs omegas (some T) none (some 0)
        let errf := fun Pv =>
          match flash_wilson S fuel zs Tcs Pcs omegas (some T) (some Pv) none with
          | Except.ok r => r.2.2.1 - vf
          | Except.error _ => 0
        match S.brenth errf rlow.2.1 rhigh.2.1 with
        | some Proot => flash_wilson S fuel zs Tcs Pcs omegas (some T) (some Proot) none
        | none => Except.error PyErr.convergenceError
    | none, some P, some vf =>
      if vf = 1 then do
        let T_guess := (List.zipWith (fun Tc z => 666/1000 * Tc * z) Tcs zs).sum
        let attempt := (S.newton
          (flash_wilson_dew_residual S zs Tcs Pcs omegas P) T_guess).map abs
        let T_dew? :=
          match attempt with
          | some td => if td > 50000 * 5 then none else some td
          | none => none
        match T_dew? with
        | some T_dew => flash_wilson S fuel zs Tcs Pcs omegas (some T_dew) (some P) none
        | none =>
          let T_low_guess := (List.zipWith (fun Tc z => 1/10 * Tc * z) Tcs zs).sum
          match S.brenth (flash_wilson_dew_residual S zs Tcs Pcs omegas P)
              50000 T_low_guess with
          | some T_dew => flash_wilson S fuel zs Tcs Pcs omegas (some T_dew) (some P) none
          | none => Except.error PyErr.convergenceError
      else if vf = 0 then do
        let T_guess := (List.zipWith (fun Tc z => 55/100 * Tc * z) Tcs zs).sum
        match S.newton (flash_wilson_bubble_residual S zs Tcs Pcs omegas P) T_guess with
        | none => Except.error PyErr.solverError
        | some tb =>
          let T_bubble := |tb|
          if T_bubble > 50000 * 5 then
            let T_low_guess := (List.zipWith (fun Tc z => 1/10 * Tc * z) Tcs zs).sum
            match S.brenth (flash_wilson_bubble_residual S zs Tcs Pcs omegas P)
                50000 T_low_guess with
            | some T_bubble2 =>
              flash_wilson S fuel zs Tcs Pcs omegas (some T_bubble2) (some P) none
            | none => Except.error PyErr.convergenceError
          else flash_wilson S fuel zs Tcs Pcs omegas (some T_bubble) (some P) none
      else do
        let rlow ← flash_wilson S fuel zs Tcs Pcs omegas none (some P) (some 1)
        let rhigh ← flash_wilson S fuel zs Tcs Pcs omegas none (some P) (some 0)
        let errf := fun Tv =>
          match flash_wilson S fuel zs Tcs Pcs omegas (some Tv) (some P) none with
          | Except.ok r => r.2.2.1 - vf
          | Except.error _ => 0
        match S.brenth errf rlow.1 rhigh.1 with
        | some Troot => flash_wilson S fuel zs Tcs Pcs omegas (some Troot) (some P) none
        | none => Except.error PyErr.convergenceError
    | _, _, _ => Except.error PyErr.provideTwo

/-- Model of `NRTL(xs, taus, alphas)` of `thermo/activity.py` (stateless activity
coefficients).  Compositions and the square parameter matrices are dense
arrays modelled as functions on indices below `n`; the list returned holds
one activity coefficient per species.  `G_ij = exp(-alpha_ij*tau_ij)`; for
each `i` the loop accumulates `tn1`, `td1` and `total2` exactly as in the
source (`td2 = td3` is the shared denominator of the second term). -/
noncomputable def NRTL (n : ℕ) (xs : ℕ → ℝ) (taus alphas : ℕ → ℕ → ℝ) :
    List ℝ :=
  let Gs : ℕ → ℕ → ℝ := fun i j => Real.exp (-(alphas i j) * taus i j)
  (List.range n).map (fun i =>
    let tn1 := ∑ j in Finset.range n, xs j * taus j i * Gs j i
    let td1 := ∑ j in Finset.range n, xs j * Gs j i
    let total2 := ∑ j in Finset.range n,
      xs j * Gs i j / (∑ k in Finset.range n, xs k * Gs k j) *
        (taus i j - (∑ m in Finset.range n, xs m * taus m j * Gs m j) /
          (∑ k in Finset.range n, xs k * Gs k j))
    Real.exp (tn1 / td1 + total2))

/-- Model of `Wilson(xs, params)` of `thermo/activity.py`:
`ln gamma_i = 1 - ln(sum_j Lambda_ij x_j) - sum_j Lambda_ji x_j / sum_k
Lambda_jk x_k`. -/
noncomputable def Wilson (n : ℕ) (xs : ℕ → ℝ) (params : ℕ → ℕ → ℝ) : List ℝ :=
  (List.range n).map (fun i =>
    let tot1 := Real.log (∑ j in Finset.range n, params i j * xs j)
    let tot2 := ∑ j in Finset.range n,
      params j i * xs j / (∑ k in Finset.range n, params j k * xs k)
    Real.exp (1 - tot1 - tot2))

/-- Modelled from the spec: `NRTL_gammas`, imported by `thermo/nrtl.py` from
`thermo.activity`, is not defined in the provided sources; §9 directs that
`gammas()` "call the same closed-form activity-coefficient formula documented
for the stateless NRTL function in §4.1".  This is that closed form, written
from the §4.1 display equation `ln(gamma_i) = [sum_j x_j tau_ji G_ji] /
[sum_k x_k G_ki] + sum_j (x_j G_ij / sum_k x_k G_kj) * (tau_ij -
[sum_m x_m tau_mj G_mj] / [sum_k x_k G_kj])` with
`G_ij = exp(-alpha_ij tau_ij)`. -/
noncomputable def NRTL_gammas (n : ℕ) (xs : ℕ → ℝ) (taus alphas : ℕ → ℕ → ℝ) :
    List ℝ :=
  let Gs : ℕ → ℕ → ℝ := fun i j => Real.exp (-(alphas i j) * taus i j)
  (List.range n).map (fun i =>
    Real.exp (
      (∑ j in Finset.range n, xs j * taus j i * Gs j i) /
        (∑ k in Finset.range n, xs k * Gs k i) +
      ∑ j in Finset.range n,
        (xs j * Gs i j / (∑ k in Finset.range n, xs k * Gs k j)) *
          (taus i j - (∑ m in Finset.range n, xs m * taus m j * Gs m j) /
            (∑ k in Finset.range n, xs k * Gs k j))))

/-- State of a `thermo/nrtl.py` `NRTL` Gibbs-excess model instance (named
`NRTLModel` here because the stateless function already carries the source
name).  The eight per-pair coefficient matrices and the zero matrix are
fixed at construction; `T` and `xs` are the current conditions; each
`cache_*` field is an attribute that the lazily-caching methods may set
(`none` = attribute absent).  `_lambdas` is read by `to_T_xs` but never
assigned anywhere in the class, so its content type is irrelevant; `cmps`
is derivable as `range N` and is not a separate field. -/
structure NRTLModel where
  T : ℝ
  xs : ℕ → ℝ
  N : ℕ
  tau_coeffs_A : ℕ → ℕ → ℝ
  tau_coeffs_B : ℕ → ℕ → ℝ
  tau_coeffs_E : ℕ → ℕ → ℝ
  tau_coeffs_F : ℕ → ℕ → ℝ
  tau_coeffs_G : ℕ → ℕ → ℝ
  tau_coeffs_H : ℕ → ℕ → ℝ
  alpha_coeffs_c : ℕ → ℕ → ℝ
  alpha_coeffs_d : ℕ → ℕ → ℝ
  zero_coeffs : ℕ → ℕ → ℝ
  cache_lambdas : Option (List (List ℝ))
  cache_Gs : Option (ℕ → ℕ → ℝ)
  cache_taus : Option (ℕ → ℕ → ℝ)
  cache_xj_Gs_jis : Option (List ℝ)
  cache_xj_Gs_taus_jis : Option (List ℝ)

/-- Model of `NRTL.taus(self)`: `tau_ij = A_ij + B_ij/T + E_ij*ln T + F_ij*T +
G_ij/T^2 + H_ij*T^2`. -/
noncomputable def NRTLModel.taus (s : NRTLModel) : ℕ → ℕ → ℝ := fun i j =>
  s.tau_coeffs_A i j + s.tau_coeffs_B i j / s.T +
    s.tau_coeffs_E i j * Real.log s.T + s.tau_coeffs_F i j * s.T +
    s.tau_coeffs_G i j / (s.T * s.T) + s.tau_coeffs_H i j * (s.T * s.T)

/-- Model of `NRTL.alphas(self)`: `alpha_ij = c_ij + d_ij*T`. -/
noncomputable def NRTLModel.alphas (s : NRTLModel) : ℕ → ℕ → ℝ := fun i j =>
  s.alpha_coeffs_c i j + s.alpha_coeffs_d i j * s.T

/-- Model of `NRTL.Gs(self)`: `G_ij = exp(-alpha_ij*tau_ij)` (not itself cached by
the source method). -/
noncomputable def NRTLModel.Gs (s : NRTLModel) : ℕ → ℕ → ℝ := fun i j =>
  Real.exp (-(s.alphas i j) * s.taus i j)

/-- Model of `NRTL.gammas(self)`: `NRTL_gammas(xs=self.xs, taus=self.taus(),
alphas=self.alphas())`. -/
noncomputable def NRTLModel.gammas (s : NRTLModel) : List ℝ :=
  NRTL_gammas s.N s.xs s.taus s.alphas

/-- Model of `NRTL.to_T_xs(self, T, xs)`: a fresh instance (`__class__.__new__`) with
the new conditions, the same `N`/`cmps`/`zero_coeffs` and the same eight
coefficient matrices; no cache attribute exists on the new instance except
that, when the new `T` equals the current `T`, `_lambdas` is copied over if
present. -/
noncomputable def NRTLModel.to_T_xs (s : NRTLModel) (T : ℝ) (xs : ℕ → ℝ) :
    NRTLModel :=
  { T := T
    xs := xs
    N := s.N
    tau_coeffs_A := s.tau_coeffs_A
    tau_coeffs_B := s.tau_coeffs_B
    tau_coeffs_E := s.tau_coeffs_E
    tau_coeffs_F := s.tau_coeffs_F
    tau_coeffs_G := s.tau_coeffs_G
    tau_coeffs_H := s.tau_coeffs_H
    alpha_coeffs_c := s.alpha_coeffs_c
    alpha_coeffs_d := s.alpha_coeffs_d
    zero_coeffs := s.zero_coeffs
    cache_lambdas := if T = s.T then s.cache_lambdas else none
    cache_Gs := none
    cache_taus := none
    cache_xj_Gs_jis := none
    cache_xj_Gs_taus_jis := none }

/-- Model of `NRTL.xj_Gs_jis(self)` ("sum1"): returns the cached
`[sum_j xs[j]*Gs[j][i] for i in cmps]` if present, else computes it (from
the `_Gs` cache when that exists) and stores it on the instance; the updated
instance is returned alongside the value. -/
noncomputable def NRTLModel.xj_Gs_jis (s : NRTLModel) : List ℝ × NRTLModel :=
  match s.cache_xj_Gs_jis with
  | some v => (v, s)
  | none =>
    let Gs := match s.cache_Gs with
      | some g => g
      | none => s.Gs
    let v := (List.range s.N).map (fun i => ∑ j in Finset.range s.N, s.xs j * Gs j i)
    (v, { s with cache_xj_Gs_jis := some v })

/-- Model of `NRTL.xj_Gs_taus_jis(self)` ("sum2"): the analogous lazily-cached
`[sum_j xs[j]*Gs[j][i]*taus[j][i] for i in cmps]`. -/
noncomputable def NRTLModel.xj_Gs_taus_jis (s : NRTLModel) : List ℝ × NRTLModel :=
  match s.cache_xj_Gs_taus_jis with
  | some v => (v, s)
  | none =>
    let Gs := match s.cache_Gs with
      | some g => g
      | none => s.Gs
    let taus := match s.cache_taus with
      | some t => t
      | none => s.taus
    let v := (List.range s.N).map
      (fun i => ∑ j in Finset.range s.N, s.xs j * Gs j i * taus j i)
    (v, { s with cache_xj_Gs_taus_jis := some v })

/-- A concrete, fully computable oracle bundle used to evaluate the embedding
at specific inputs: the open solvers return their initial guess, the
bracketed solver returns the bracket midpoint, the epsilon constants are
exact, and the float `exp` / `**0.5` stubs return 1 and 0. -/
def S0 : Solvers where
  newton := fun _ x => some x
  newtonBounded := fun _ x _ _ => some x
  newtonFp := fun _ _ x => some x
  newtonFp2 := fun _ _ _ x => some x
  brenth := fun _ a b => some ((a + b) / 2)
  oneEpsLarger := 1
  oneEpsSmaller := 1
  sqrtApprox := fun _ => 0
  expApprox := fun _ => 1
  isPyPy := false

/-- The closed-form bubble pressure of the spec's `T known, VF=0` mode:
`P_bubble = sum_i zs[i]*Pcs[i]*exp(5.37*(1+omegas[i])*(1-Tcs[i]/T))`. -/
def flash_wilson_Pbubble_form (S : Solvers) (zs Tcs Pcs omegas : List ℚ)
    (T : ℚ) : ℚ :=
  ((List.range zs.length).map (fun i =>
    zs.getD i 0 * Pcs.getD i 0 *
      S.expApprox (537/100 * (1 + omegas.getD i 0) * (1 - Tcs.getD i 0 / T)))).sum

/-- An equimolar binary composition, used to instantiate theorems. -/
noncomputable def xs_half : ℕ → ℝ := fun _ => 1/2

/-- A concrete one-component NRTL model instance at 300 K with all
coefficients zero and no caches populated, used to instantiate theorems. -/
noncomputable def nrtl_s0 : NRTLModel where
  T := 300
  xs := fun _ => 1
  N := 1
  tau_coeffs_A := fun _ _ => 0
  tau_coeffs_B := fun _ _ => 0
  tau_coeffs_E := fun _ _ => 0
  tau_coeffs_F := fun _ _ => 0
  tau_coeffs_G := fun _ _ => 0
  tau_coeffs_H := fun _ _ => 0
  alpha_coeffs_c := fun _ _ => 0
  alpha_coeffs_d := fun _ _ => 0
  zero_coeffs := fun _ _ => 0
  cache_lambdas := none
  cache_Gs := none
  cache_taus := none
  cache_xj_Gs_jis := none
  cache_xj_Gs_taus_jis := none

/-- Decidable equality of `Except` results, for evaluating the embedding at
concrete inputs. -/
instance exceptDecEq {e a : Type} [DecidableEq e] [DecidableEq a] :
    DecidableEq (Except e a) := fun x y =>
  match x, y with
  | Except.ok u, Except.ok v =>
    if h : u = v then isTrue (by rw [h]) else
      isFalse (fun hc => h (Except.ok.inj hc))
  | Except.error u, Except.error v =>
    if h : u = v then isTrue (by rw [h]) else
      isFalse (fun hc => h (Except.error.inj hc))
  | Except.ok _, Except.error _ => isFalse (fun hc => Except.noConfusion hc)
  | Except.error _, Except.ok _ => isFalse (fun hc => Except.noConfusion hc)

/-- C10: `K_value` detects optional arguments by numeric truthiness, not by
whether they were supplied: with `P` and `Psat` supplied, a supplied
`gamma = 0.0` is ignored and the pure Raoult value `Psat/P` is returned
(first conjunct); a supplied `phi_l = 0.0` is likewise treated as absent both
without `gamma` (second conjunct, Raoult) and with a truthy `gamma` (third
conjunct, modified Raoult ignoring `phi_l`). -/
theorem claim10_theorem (P Psat Poy g : ℚ) (fg : Option ℚ)
    (hP : P ≠ 0) (hg : g ≠ 0) :
    K_value (some P) (some Psat) none none (some 0) Poy = Except.ok (Psat / P) ∧
    K_value (some P) (some Psat) (some 0) fg none Poy = Except.ok (Psat / P) ∧
    K_value (some P) (some Psat) (some 0) fg (some g) Poy =
      Except.ok (g * Psat * Poy / P) := by
  refine ⟨?_, ?_, ?_⟩ <;>
    simp [K_value, truthyQ, need, pydiv, Bind.bind, Except.bind, hP, hg]

/-- C10 witness: the truthiness behaviour evaluated at `P = 101325`,
`Psat = 3000`, `gamma = 0.0`, `phi_l = 0.0`, and a truthy `gamma = 2`. -/
theorem claim10_witness :
    K_value (some 101325) (some 3000) none none (some 0) 1 =
      Except.ok ((3000 : ℚ) / 101325) ∧
    K_value (some 101325) (some 3000) (some 0) none none 1 =
      Except.ok ((3000 : ℚ) / 101325) ∧
    K_value (some 101325) (some 3000) (some 0) none (some 2) 1 =
      Except.ok ((2 : ℚ) * 3000 * 1 / 101325) :=
  claim10_theorem 101325 3000 1 2 none (by norm_num) (by norm_num)

/-- C2 counterexample: the claim reads presence as "supplied", but for
`P = 101325`, `Psat = 3000` and a supplied `gamma = 0.0` (no `phi_l`) the
code returns the Raoult value `Psat/P`, not the claimed
`gamma*Psat*Poynting/P = 0`, which differs. -/
theorem claim2_counterexample :
    K_value (some 101325) (some 3000) none none (some 0) 1 =
      Except.ok ((3000 : ℚ) / 101325) ∧
    (0 : ℚ) * 3000 * 1 / 101325 ≠ (3000 : ℚ) / 101325 := by
  constructor
  · simp [K_value, truthyQ, need, pydiv, Bind.bind, Except.bind]
  · norm_num

/-- C2 (amended): `K_value` selects its formula by priority over the TRUTHY
(supplied and nonzero) optional arguments: gamma and phi_l truthy gives the
combined formula; gamma truthy alone the modified Raoult formula; phi_l
truthy alone the EOS ratio; otherwise Raoult's law — and it fails with the
InvalidInput wrapper when a required companion argument of the selected
branch is absent (a `None` operand's `TypeError` is re-raised descriptively).
A zero denominator instead raises `ZeroDivisionError` past the wrapper, hence
the nonzero-denominator hypotheses on the value clauses. -/
theorem claim2_theorem (Poy : ℚ) (P Psat phi_l phi_g gamma : Option ℚ) :
    (∀ g ps fl fg p, gamma = some g → g ≠ 0 → phi_l = some fl → fl ≠ 0 →
      Psat = some ps → phi_g = some fg → P = some p → fg * p ≠ 0 →
      K_value P Psat phi_l phi_g gamma Poy =
        Except.ok (g * ps * fl * Poy / (fg * p))) ∧
    (∀ g fl, gamma = some g → g ≠ 0 → phi_l = some fl → fl ≠ 0 →
      (Psat = none ∨ phi_g = none ∨ P = none) →
      K_value P Psat phi_l phi_g gamma Poy = Except.error PyErr.invalidInput) ∧
    (∀ g ps p, gamma = some g → g ≠ 0 → (phi_l = none ∨ phi_l = some 0) →
      Psat = some ps → P = some p → p ≠ 0 →
      K_value P Psat phi_l phi_g gamma Poy = Except.ok (g * ps * Poy / p)) ∧
    (∀ g, gamma = some g → g ≠ 0 → (phi_l = none ∨ phi_l = some 0) →
      (Psat = none ∨ P = none) →
      K_value P Psat phi_l phi_g gamma Poy = Except.error PyErr.invalidInput) ∧
    (∀ fl fg, (gamma = none ∨ gamma = some 0) → phi_l = some fl → fl ≠ 0 →
      phi_g = some fg → fg ≠ 0 →
      K_value P Psat phi_l phi_g gamma Poy = Except.ok (fl / fg)) ∧
    (∀ fl, (gamma = none ∨ gamma = some 0) → phi_l = some fl → fl ≠ 0 →
      phi_g = none →
      K_value P Psat phi_l phi_g gamma Poy = Except.error PyErr.invalidInput) ∧
    (∀ ps p, (gamma = none ∨ gamma = some 0) → (phi_l = none ∨ phi_l = some 0) →
      Psat = some ps → P = some p → p ≠ 0 →
      K_value P Psat phi_l phi_g gamma Poy = Except.ok (ps / p)) ∧
    ((gamma = none ∨ gamma = some 0) → (phi_l = none ∨ phi_l = some 0) →
      (Psat = none ∨ P = none) →
      K_value P Psat phi_l phi_g gamma Poy = Except.error PyErr.invalidInput) := by
  refine ⟨?_, ?_, ?_, ?_, ?_, ?_, ?_, ?_⟩
  · intro g ps fl fg p hg hg0 hfl hfl0 hps hfg hp hden
    subst hg; subst hfl; subst hps; subst hfg; subst hp
    simp [K_value, truthyQ, need, pydiv, Bind.bind, Except.bind, hg0, hfl0, hden]
  · intro g fl hg hg0 hfl hfl0 hmiss
    subst hg; subst hfl
    rcases Psat with _ | ps <;> rcases phi_g with _ | fg <;> rcases P with _ | p <;>
      simp_all [K_value, truthyQ, need, pydiv, Bind.bind, Except.bind, hg0, hfl0]
  · intro g ps p hg hg0 hfl hps hp hp0
    subst hg; subst hps; subst hp
    rcases hfl with h | h <;> subst h <;>
      simp [K_value, truthyQ, need, pydiv, Bind.bind, Except.bind, hg0, hp0]
  · intro g hg hg0 hfl hmiss
    subst hg
    rcases hfl with h | h <;> subst h <;>
      rcases Psat with _ | ps <;> rcases P with _ | p <;>
      simp_all [K_value, truthyQ, need, pydiv, Bind.bind, Except.bind, hg0]
  · intro fl fg hgam hfl hfl0 hfg hfg0
    subst hfl; subst hfg
    rcases hgam with h | h <;> subst h <;>
      simp [K_value, truthyQ, need, pydiv, Bind.bind, Except.bind, hfl0, hfg0]
  · intro fl hgam hfl hfl0 hfg
    subst hfl; subst hfg
    rcases hgam with h | h <;> subst h <;>
      simp [K_value, truthyQ, need, pydiv, Bind.bind, Except.bind, hfl0]
  · intro ps p hgam hfl hps hp hp0
    subst hps; subst hp
    rcases hgam with h | h <;> rcases hfl with h2 | h2 <;> subst h <;> subst h2 <;>
      simp [K_value, truthyQ, need, pydiv, Bind.bind, Except.bind, hp0]
  · intro hgam hfl hmiss
    rcases hgam with h | h <;> rcases hfl with h2 | h2 <;> subst h <;> subst h2 <;>
      rcases Psat with _ | ps <;> rcases P with _ | p <;>
      simp_all [K_value, truthyQ, need, pydiv, Bind.bind, Except.bind]

/-- C2 witness: the Raoult clause of the amended priority table evaluated at
`P = 101325`, `Psat = 3000` with no other arguments. -/
theorem claim2_witness :
    K_value (some 101325) (some 3000) none none none 1 =
      Except.ok ((3000 : ℚ) / 101325) :=
  (claim2_theorem 1 (some 101325) (some 3000) none none
    none).2.2.2.2.2.2.1 3000 101325 (Or.inl rfl) (Or.inl rfl) rfl rfl
    (by norm_num)

/-- C5 counterexample: the claim reads "Tm is supplied" as presence, but a
supplied melting point of `0.0` is falsy, so at `T = 0 ≤ Tm = 0` the code
skips the solid rule (and, with nothing else supplied, returns `None`
instead of the claimed `'s'`). -/
theorem claim5_counterexample :
    identify_phase 0 101325 (some 0) none none none = none := by decide

/-- C5 (amended): `identify_phase` applies its rules in priority order over
the TRUTHY (supplied and nonzero) optional inputs: a truthy `Tm` with
`T ≤ Tm` gives solid regardless of the other inputs; otherwise a truthy `Tc`
with `T ≥ Tc` gives gas; otherwise a truthy `Psat` gives gas when
`P ≤ Psat` and liquid when `P > Psat`. -/
theorem claim5_theorem (T P : ℚ) (Tm Tb Tc Psat : Option ℚ) :
    (∀ tm, Tm = some tm → tm ≠ 0 → T ≤ tm →
      identify_phase T P Tm Tb Tc Psat = some Phase.s) ∧
    ((∀ tm, Tm = some tm → tm = 0 ∨ tm < T) →
      ∀ tc, Tc = some tc → tc ≠ 0 → tc ≤ T →
      identify_phase T P Tm Tb Tc Psat = some Phase.g) ∧
    ((∀ tm, Tm = some tm → tm = 0 ∨ tm < T) →
      (∀ tc, Tc = some tc → tc = 0 ∨ T < tc) →
      ∀ ps, Psat = some ps → ps ≠ 0 →
      ((P ≤ ps → identify_phase T P Tm Tb Tc Psat = some Phase.g) ∧
       (ps < P → identify_phase T P Tm Tb Tc Psat = some Phase.l))) := by
  have notFire : ∀ (o : Option ℚ) (c : ℚ → Prop) [DecidablePred c],
      (∀ v, o = some v → v = 0 ∨ ¬ c v) →
      ¬ (truthyQ o = true ∧ c (o.getD 0)) := by
    intro o c _ h
    rcases o with _ | v
    · simp [truthyQ]
    · rcases h v rfl with h1 | h1
      · subst h1; simp [truthyQ]
      · simp [truthyQ, h1]
  refine ⟨?_, ?_, ?_⟩
  · intro tm h h0 hle
    subst h
    rw [identify_phase,
      if_pos (show truthyQ (some tm) = true ∧ T ≤ (some tm).getD 0 from
        ⟨by simp [truthyQ, h0], hle⟩)]
  · intro htm tc h h0 hle
    subst h
    have hnotm : ¬ (truthyQ Tm = true ∧ T ≤ Tm.getD 0) :=
      notFire Tm (fun v => T ≤ v) (fun v hv => by
        rcases htm v hv with h1 | h1
        · exact Or.inl h1
        · exact Or.inr (not_le_of_gt h1))
    rw [identify_phase, if_neg hnotm,
      if_pos (show truthyQ (some tc) = true ∧ T ≥ (some tc).getD 0 from
        ⟨by simp [truthyQ, h0], hle⟩)]
  · intro htm htc ps h h0
    subst h
    have hnotm : ¬ (truthyQ Tm = true ∧ T ≤ Tm.getD 0) :=
      notFire Tm (fun v => T ≤ v) (fun v hv => by
        rcases htm v hv with h1 | h1
        · exact Or.inl h1
        · exact Or.inr (not_le_of_gt h1))
    have hnotc : ¬ (truthyQ Tc = true ∧ T ≥ Tc.getD 0) :=
      notFire Tc (fun v => T ≥ v) (fun v hv => by
        rcases htc v hv with h1 | h1
        · exact Or.inl h1
        · exact Or.inr (not_le_of_gt h1))
    have hps : truthyQ (some ps) = true := by simp [truthyQ, h0]
    constructor
    · intro hle
      rw [identify_phase, if_neg hnotm, if_neg hnotc, if_pos hps]
      simp [hle]
    · intro hgt
      rw [identify_phase, if_neg hnotm, if_neg hnotc, if_pos hps]
      simp [not_le_of_gt hgt]

/-- C5 witness: the spec's own boundary example,
`identify_phase(T=280, P=101325, Tm=273.15, Psat=991) == 'l'`
(273.15 = 5463/20). -/
theorem claim5_witness :
    identify_phase 280 101325 (some (5463/20)) none none (some 991) =
      some Phase.l := by
  have htm : ∀ tm : ℚ, (some (5463/20) : Option ℚ) = some tm →
      tm = 0 ∨ tm < 280 := by
    intro tm h
    right
    rw [← Option.some.inj h]
    norm_num
  have htc : ∀ tc : ℚ, (none : Option ℚ) = some tc → tc = 0 ∨ (280 : ℚ) < tc := by
    intro tc h
    simp at h
  exact ((claim5_theorem 280 101325 (some (5463/20)) none none
    (some 991)).2.2 htm htc 991 rfl (by norm_num)).2 (by norm_num)

/-- C8 counterexample: on an instance whose weighted-sum cache (`_xj_Gs_jis`)
has just been computed, cloning via `to_T_xs` at the SAME temperature does
not carry that cache over — the new instance has no `_xj_Gs_jis` attribute
(only the never-populated `_lambdas` attribute is conditionally copied), so
the weighted sums are recomputed, contrary to the claim. -/
theorem claim8_counterexample :
    ((nrtl_s0.xj_Gs_jis).2).T = 300 ∧
    ((nrtl_s0.xj_Gs_jis).2).cache_xj_Gs_jis ≠ none ∧
    (((nrtl_s0.xj_Gs_jis).2).to_T_xs 300 nrtl_s0.xs).cache_xj_Gs_jis = none := by
  refine ⟨rfl, ?_, rfl⟩
  simp [NRTLModel.xj_Gs_jis, nrtl_s0]

/-- C8 (amended): `to_T_xs(T, xs)` returns a new instance sharing the eight
coefficient matrices, `N` and the zero matrix of the original (the original,
being a value, is untouched), carrying the new `T` and `xs`; when the new `T`
equals the current `T` it carries over only the `_lambdas` attribute (which
this class never populates) — every other cache attribute, in particular the
weighted-sum caches `_xj_Gs_jis` / `_xj_Gs_taus_jis`, is absent on the new
instance and is recomputed lazily on demand. -/
theorem claim8_theorem (s : NRTLModel) (T : ℝ) (xs : ℕ → ℝ) :
    (s.to_T_xs T xs).T = T ∧ (s.to_T_xs T xs).xs = xs ∧
    (s.to_T_xs T xs).N = s.N ∧
    (s.to_T_xs T xs).tau_coeffs_A = s.tau_coeffs_A ∧
    (s.to_T_xs T xs).tau_coeffs_B = s.tau_coeffs_B ∧
    (s.to_T_xs T xs).tau_coeffs_E = s.tau_coeffs_E ∧
    (s.to_T_xs T xs).tau_coeffs_F = s.tau_coeffs_F ∧
    (s.to_T_xs T xs).tau_coeffs_G = s.tau_coeffs_G ∧
    (s.to_T_xs T xs).tau_coeffs_H = s.tau_coeffs_H ∧
    (s.to_T_xs T xs).alpha_coeffs_c = s.alpha_coeffs_c ∧
    (s.to_T_xs T xs).alpha_coeffs_d = s.alpha_coeffs_d ∧
    (s.to_T_xs T xs).zero_coeffs = s.zero_coeffs ∧
    (s.to_T_xs T xs).cache_lambdas =
      (if T = s.T then s.cache_lambdas else none) ∧
    (s.to_T_xs T xs).cache_Gs = none ∧
    (s.to_T_xs T xs).cache_taus = none ∧
    (s.to_T_xs T xs).cache_xj_Gs_jis = none ∧
    (s.to_T_xs T xs).cache_xj_Gs_taus_jis = none :=
  ⟨rfl, rfl, rfl, rfl, rfl, rfl, rfl, rfl, rfl, rfl, rfl, rfl, rfl, rfl, rfl,
    rfl, rfl⟩

/-- Element access of a map over an index range. -/
theorem getD_map_range (f : ℕ → ℝ) (n i : ℕ) (h : i < n) :
    ((List.range n).map f).getD i 0 = f i := by
  simp [List.getD, List.getElem?_range, h]

/-- C6: `gammas()` of the Gibbs-excess NRTL model returns exactly the
activity-coefficient vector of the stateless component-1 `NRTL` closed form
evaluated at the instance's `xs` with the instance's `taus()` and `alphas()`
matrices (first conjunct, via the spec-modelled `NRTL_gammas`, whose §4.1
formula coincides with the stateless function); the vector has one entry per
species, each equal to the NRTL closed form in the instance's `taus`,
`alphas` and `Gs` matrices (remaining conjuncts). -/
theorem claim6_theorem (s : NRTLModel) :
    s.gammas = NRTL s.N s.xs s.taus s.alphas ∧
    s.gammas.length = s.N ∧
    ∀ i, i < s.N → s.gammas.getD i 0 =
      Real.exp (
        (∑ j in Finset.range s.N, s.xs j * s.taus j i * s.Gs j i) /
          (∑ k in Finset.range s.N, s.xs k * s.Gs k i) +
        ∑ j in Finset.range s.N,
          s.xs j * s.Gs i j / (∑ k in Finset.range s.N, s.xs k * s.Gs k j) *
            (s.taus i j -
              (∑ m in Finset.range s.N, s.xs m * s.taus m j * s.Gs m j) /
                (∑ k in Finset.range s.N, s.xs k * s.Gs k j))) := by
  refine ⟨rfl, by simp [NRTLModel.gammas, NRTL_gammas], ?_⟩
  intro i hi
  exact getD_map_range _ s.N i hi

/-- C6 witness: the elementwise closed-form characterisation evaluated for
the concrete one-component model instance. -/
theorem claim6_witness :
    0 < nrtl_s0.N ∧
    nrtl_s0.gammas.getD 0 0 =
      Real.exp (
        (∑ j in Finset.range nrtl_s0.N,
            nrtl_s0.xs j * nrtl_s0.taus j 0 * nrtl_s0.Gs j 0) /
          (∑ k in Finset.range nrtl_s0.N, nrtl_s0.xs k * nrtl_s0.Gs k 0) +
        ∑ j in Finset.range nrtl_s0.N,
          nrtl_s0.xs j * nrtl_s0.Gs 0 j /
              (∑ k in Finset.range nrtl_s0.N, nrtl_s0.xs k * nrtl_s0.Gs k j) *
            (nrtl_s0.taus 0 j -
              (∑ m in Finset.range nrtl_s0.N,
                  nrtl_s0.xs m * nrtl_s0.taus m j * nrtl_s0.Gs m j) /
                (∑ k in Finset.range nrtl_s0.N,
                  nrtl_s0.xs k * nrtl_s0.Gs k j))) :=
  ⟨by norm_num [nrtl_s0], (claim6_theorem nrtl_s0).2.2 0 (by norm_num [nrtl_s0])⟩

/-- C4 counterexample: `Wilson` with the all-ones parameter matrix is NOT
identically 1 on every composition vector: at the (unnormalised,
sum = 3/4) composition `[1/2, 1/4]` every activity coefficient is 4/3. -/
theorem claim4_counterexample :
    (Wilson 2 (fun i => if i = 0 then (1/2 : ℝ) else 1/4)
      (fun _ _ => 1)).getD 0 0 ≠ 1 ∧
    Wilson 2 (fun i => if i = 0 then (1/2 : ℝ) else 1/4) (fun _ _ => 1) ≠
      [1, 1] := by
  have key : ∀ h2 : Wilson 2 (fun i => if i = 0 then (1/2 : ℝ) else 1/4)
      (fun _ _ => 1) = [1, 1], False := by
    intro h
    have h2 := congrArg (fun l => l.getD 0 0) h
    simp [Wilson, List.range_succ, Finset.sum_range_succ] at h2
    have h34 : (2⁻¹ + 4⁻¹ : ℝ) = 3/4 := by norm_num
    rw [h34] at h2
    have hdiv : (2⁻¹ / (3/4 : ℝ) + 4⁻¹ / (3/4)) = 1 := by norm_num
    rw [hdiv] at h2
    have hlog0 : Real.log (3/4 : ℝ) = 0 := by linarith
    rcases Real.log_eq_zero.mp hlog0 with h3 | h3 | h3 <;> norm_num at h3
  constructor
  · intro h
    apply key
    have hx : ∀ i < 2, (Wilson 2 (fun i => if i = 0 then (1/2 : ℝ) else 1/4)
        (fun _ _ => 1)).getD i 0 = 1 := by
      intro i hi
      interval_cases i
      · exact h
      · -- both species see the same sums, so the two entries coincide
        have := h
        simp [Wilson, List.range_succ, Finset.sum_range_succ] at this ⊢
        convert this using 3
    have hlen : (Wilson 2 (fun i => if i = 0 then (1/2 : ℝ) else 1/4)
        (fun _ _ => 1)).length = 2 := by
      simp [Wilson]
    apply List.ext_getElem
    · simpa using hlen
    · intro i hi1 hi2
      have hi : i < 2 := by simpa [hlen] using hi1
      have := hx i hi
      interval_cases i <;>
        simp_all [List.getD, List.getElem?_eq_getElem, hi1]
  · intro h
    exact key h

/-- C4 (amended): the stateless NRTL activity model returns gamma = 1 for
every species at EVERY composition when all interaction parameters tau are
zero, regardless of the alpha matrix; the stateless Wilson model with the
all-ones parameter matrix returns gamma = 1 for every species when the
composition sums to 1 (the counterexample shows unnormalised compositions
give gamma = 1/sum(xs) instead). -/
theorem claim4_theorem :
    (∀ (n : ℕ) (xs : ℕ → ℝ) (alphas : ℕ → ℕ → ℝ),
      NRTL n xs (fun _ _ => 0) alphas = List.replicate n 1) ∧
    (∀ (n : ℕ) (xs : ℕ → ℝ), (∑ j in Finset.range n, xs j) = 1 →
      Wilson n xs (fun _ _ => 1) = List.replicate n 1) := by
  constructor
  · intro n xs alphas
    simp [NRTL]
  · intro n xs h
    simp [Wilson, h]

/-- C4 witness: both reductions evaluated for two species — NRTL at the
equimolar composition with zero taus and a nonzero alpha matrix, Wilson at
the equimolar composition (which sums to 1) with all-ones parameters. -/
theorem claim4_witness :
    NRTL 2 xs_half (fun _ _ => 0) (fun _ _ => 3/10) = List.replicate 2 1 ∧
    ((∑ j in Finset.range 2, xs_half j) = 1 ∧
      Wilson 2 xs_half (fun _ _ => 1) = List.replicate 2 1) := by
  have h : (∑ j in Finset.range 2, xs_half j) = 1 := by
    simp [xs_half, Finset.sum_range_succ]
  exact ⟨claim4_theorem.1 2 xs_half (fun _ _ => 3/10),
    ⟨h, claim4_theorem.2 2 xs_half h⟩⟩

/-- C9: evaluation of `bubble_at_T` at the failing input
`zs=[0.5,0.5], Psats=[1400,7000], fugacities=[1.0,0.0]`: the zero fugacity
raises `ZeroDivisionError` inside the comprehension, the length check
passes, and the handler executes `return e` — the caught exception OBJECT is
returned as the function's result instead of being re-raised, contradicting
the spec's propagation policy (the sibling branches use `raise e`). -/
theorem claim9_theorem :
    bubble_at_T [1/2, 1/2] [1400, 7000] (some [1, 0]) none =
      Except.ok (PyRet.excObj PyErr.zeroDivision) := by
  simp [bubble_at_T, mapME, idx, pydiv, none_and_length_check, Bind.bind,
    Except.bind, List.range_succ]

/-- C1 counterexample: under the automatically selected Analytical method,
`flash_inner_loop(zs=[0,1], Ks=[2,1/2])` drops the zero-mole-fraction
species from `xs` (one entry instead of one per species) and pairs the
surviving entry with the FIRST K value: it returns
`(VF, xs, ys) = (-1, [2/3], [4/3])`, where `4/3 = Ks[0]*xs[0]` uses `Ks[0]=2`
although `xs[0]` is the composition of species 2 (whose K is 1/2). -/
theorem claim1_counterexample :
    flash_inner_loop S0 [0, 1] [2, 1/2] none =
      Except.ok (-1, [2/3], [4/3]) ∧
    ([(2 : ℚ)/3]).length ≠ ([(0 : ℚ), 1]).length ∧
    (4 : ℚ)/3 ≠ (1/2) * (2/3) := by
  refine ⟨?_, by decide, by norm_num⟩
  simp [flash_inner_loop, S0, analytical_xs, RR_ys]
  norm_num

/-- Element access of a pointwise combination of two lists. -/
theorem zipWith_getD (f : ℚ → ℚ → ℚ) :
    ∀ (as bs : List ℚ) (i : ℕ), i < as.length → i < bs.length →
      (List.zipWith f as bs).getD i 0 = f (as.getD i 0) (bs.getD i 0) := by
  intro as
  induction as with
  | nil => intro bs i h1 h2; simp at h1
  | cons a as ih =>
    intro bs i h1 h2
    cases bs with
    | nil => simp at h2
    | cons b bs =>
      cases i with
      | zero => simp
      | succ j =>
        simp only [List.zipWith_cons_cons, List.getD_cons_succ]
        exact ih bs j (Nat.lt_of_succ_lt_succ h1) (Nat.lt_of_succ_lt_succ h2)

/-- Mapping a binary combination over zipped pairs is `zipWith`. -/
theorem zip_map_eq_zipWith (f : ℚ → ℚ → ℚ) :
    ∀ (as bs : List ℚ),
      (as.zip bs).map (fun p => f p.1 p.2) = List.zipWith f as bs := by
  intro as
  induction as with
  | nil => intro bs; simp
  | cons a as ih =>
    intro bs
    cases bs with
    | nil => simp
    | cons b bs => simp [ih]

/-- Every successful `Rachford_Rice_solution` result is the standard
assembly `xs = RR_xs`, `ys = RR_ys` at its vapor fraction, whichever of the
open or bracketed solvers produced it. -/
theorem Rachford_Rice_solution_ok_shape (S : Solvers) (zs Ks : List ℚ)
    (fp fp2 : Bool) (VF : ℚ) (xs ys : List ℚ)
    (h : Rachford_Rice_solution S zs Ks fp fp2 = Except.ok (VF, xs, ys)) :
    xs = RR_xs zs Ks VF ∧ ys = RR_ys (RR_xs zs Ks VF) Ks := by
  simp only [Rachford_Rice_solution] at h
  split at h
  · exact absurd h (by simp)
  · split at h
    · exact absurd h (by simp)
    · split at h
      · simp only [Except.ok.injEq, Prod.mk.injEq] at h
        obtain ⟨h1, h2, h3⟩ := h
        subst h1
        exact ⟨h2.symm, h3.symm⟩
      · split at h
        · simp only [Except.ok.injEq, Prod.mk.injEq] at h
          obtain ⟨h1, h2, h3⟩ := h
          subst h1
          exact ⟨h2.symm, h3.symm⟩
        · exact absurd h (by simp)

/-- Every successful `Rachford_Rice_solution_numpy` result is the standard
assembly at its vapor fraction. -/
theorem Rachford_Rice_numpy_ok_shape (S : Solvers) (zs Ks : List ℚ)
    (VF : ℚ) (xs ys : List ℚ)
    (h : Rachford_Rice_solution_numpy S zs Ks = Except.ok (VF, xs, ys)) :
    xs = RR_xs zs Ks VF ∧ ys = RR_ys (RR_xs zs Ks VF) Ks := by
  simp only [Rachford_Rice_solution_numpy] at h
  split at h
  · exact absurd h (by simp)
  · split at h
    · exact absurd h (by simp)
    · split at h
      · simp only [Except.ok.injEq, Prod.mk.injEq] at h
        obtain ⟨h1, h2, h3⟩ := h
        subst h1
        exact ⟨h2.symm, h3.symm⟩
      · exact absurd h (by simp)

/-- Every successful `Li_Johns_Ahmadi_solution` result is the standard
assembly (over the original, unsorted `zs`, `Ks`) at its vapor fraction. -/
theorem Li_Johns_Ahmadi_ok_shape (S : Solvers) (zs Ks : List ℚ)
    (VF : ℚ) (xs ys : List ℚ)
    (h : Li_Johns_Ahmadi_solution S zs Ks = Except.ok (VF, xs, ys)) :
    xs = RR_xs zs Ks VF ∧ ys = RR_ys (RR_xs zs Ks VF) Ks := by
  simp only [Li_Johns_Ahmadi_solution] at h
  split at h
  · split at h
    · simp only [Except.ok.injEq, Prod.mk.injEq] at h
      obtain ⟨h1, h2, h3⟩ := h
      subst h1
      exact ⟨h2.symm, h3.symm⟩
    · exact absurd h (by simp)
  · exact absurd h (by simp)

/-- When no overall mole fraction is zero, the Analytical branch's filtered
liquid composition coincides with the standard assembly. -/
theorem analytical_xs_eq_RR_xs (zs Ks : List ℚ) (VF : ℚ)
    (hz : ∀ z ∈ zs, z ≠ 0) :
    analytical_xs zs Ks VF = RR_xs zs Ks VF := by
  unfold analytical_xs RR_xs
  have hfil : (zs.zip Ks).filter (fun p => decide (p.1 ≠ 0)) = zs.zip Ks := by
    apply List.filter_eq_self.mpr
    intro p hp
    have := hz p.1 (List.of_mem_zip hp).1
    simpa using this
  rw [hfil]
  exact zip_map_eq_zipWith (fun a b => a / (1 + VF * (b - 1))) zs Ks

/-- Every successful `flash_inner_loop` result, under any method, is the
standard assembly at its vapor fraction, provided no overall mole fraction
is zero (which neutralises the Analytical branch's filter). -/
theorem flash_inner_loop_ok_shape (S : Solvers) (zs Ks : List ℚ)
    (M : Option FlashMethod) (VF : ℚ) (xs ys : List ℚ)
    (hz : ∀ z ∈ zs, z ≠ 0)
    (h : flash_inner_loop S zs Ks M = Except.ok (VF, xs, ys)) :
    xs = RR_xs zs Ks VF ∧ ys = RR_ys (RR_xs zs Ks VF) Ks := by
  simp only [flash_inner_loop] at h
  split at h
  · exact Rachford_Rice_solution_ok_shape S _ _ false false VF xs ys h
  · split at h
    · split at h
      · exact Rachford_Rice_solution_ok_shape S _ _ false false VF xs ys h
      · simp only [Except.ok.injEq, Prod.mk.injEq] at h
        obtain ⟨h1, h2, h3⟩ := h
        subst h1
        refine ⟨?_, ?_⟩
        · rw [← h2]; exact (analytical_xs_eq_RR_xs _ _ _ hz)
        · rw [← h3, analytical_xs_eq_RR_xs _ _ _ hz]
    · simp only [Except.ok.injEq, Prod.mk.injEq] at h
      obtain ⟨h1, h2, h3⟩ := h
      subst h1
      refine ⟨?_, ?_⟩
      · rw [← h2]; exact (analytical_xs_eq_RR_xs _ _ _ hz)
      · rw [← h3, analytical_xs_eq_RR_xs _ _ _ hz]
    · split at h <;> exact absurd h (by simp)
  · exact Rachford_Rice_numpy_ok_shape S _ _ VF xs ys h
  · exact Rachford_Rice_solution_ok_shape S _ _ true false VF xs ys h
  · exact Rachford_Rice_solution_ok_shape S _ _ true true VF xs ys h
  · exact Li_Johns_Ahmadi_ok_shape S _ _ VF xs ys h

/-- The standard assembly has one liquid and one vapor entry per species of
`zs` and satisfies `ys[i] = Ks[i]*xs[i]` for every species. -/
theorem RR_assembly_props (zs Ks : List ℚ) (VF : ℚ)
    (hlen : zs.length = Ks.length) :
    (RR_xs zs Ks VF).length = zs.length ∧
    (RR_ys (RR_xs zs Ks VF) Ks).length = zs.length ∧
    ∀ i, i < zs.length →
      (RR_ys (RR_xs zs Ks VF) Ks).getD i 0 =
        Ks.getD i 0 * (RR_xs zs Ks VF).getD i 0 := by
  have hx : (RR_xs zs Ks VF).length = zs.length := by
    simp [RR_xs, hlen]
  refine ⟨hx, ?_, ?_⟩
  · simp [RR_ys, hx, hlen]
  · intro i hi
    exact zipWith_getD (fun x K => K * x) (RR_xs zs Ks VF) Ks i
      (by rw [hx]; exact hi) (by rw [← hlen]; exact hi)

/-- C1 (amended): `ys[i] = Ks[i]*xs[i]`, with `xs` and `ys` carrying one
entry per species of `zs`, holds for every species in every result of
`Rachford_Rice_solution` (first conjunct, any derivative options), and in
every result of `flash_inner_loop` under any method — including the
Analytical method for 2 or 3 components — whenever every entry of `zs` is
nonzero (second conjunct; the counterexample shows the Analytical method
violates the claim when some `zs[i] = 0`). -/
theorem claim1_theorem (S : Solvers) (zs Ks : List ℚ)
    (hlen : zs.length = Ks.length) :
    (∀ (fp fp2 : Bool) (VF : ℚ) (xs ys : List ℚ),
      Rachford_Rice_solution S zs Ks fp fp2 = Except.ok (VF, xs, ys) →
      xs.length = zs.length ∧ ys.length = zs.length ∧
      ∀ i, i < zs.length → ys.getD i 0 = Ks.getD i 0 * xs.getD i 0) ∧
    ((∀ z ∈ zs, z ≠ 0) →
      ∀ (M : Option FlashMethod) (VF : ℚ) (xs ys : List ℚ),
      flash_inner_loop S zs Ks M = Except.ok (VF, xs, ys) →
      xs.length = zs.length ∧ ys.length = zs.length ∧
      ∀ i, i < zs.length → ys.getD i 0 = Ks.getD i 0 * xs.getD i 0) := by
  constructor
  · intro fp fp2 VF xs ys h
    obtain ⟨hxs, hys⟩ := Rachford_Rice_solution_ok_shape S zs Ks fp fp2 VF xs ys h
    subst hxs; subst hys
    exact RR_assembly_props zs Ks VF hlen
  · intro hz M VF xs ys h
    obtain ⟨hxs, hys⟩ := flash_inner_loop_ok_shape S zs Ks M VF xs ys hz h
    subst hxs; subst hys
    exact RR_assembly_props zs Ks VF hlen

/-- C1 witness: the flash-result invariant instantiated at
`zs = [1/2, 1/2]`, `Ks = [2, 1/2]` with the concrete oracle bundle, whose
secant path returns `VF = 3/4`, `xs = [2/7, 4/5]`, `ys = [4/7, 2/5]`. -/
theorem claim1_witness :
    [(1 : ℚ)/2, 1/2].length = [(2 : ℚ), 1/2].length ∧
    ∀ i, i < [(1 : ℚ)/2, 1/2].length →
      ([(4 : ℚ)/7, 2/5]).getD i 0 =
        ([(2 : ℚ), 1/2]).getD i 0 * ([(2 : ℚ)/7, 4/5]).getD i 0 := by
  refine ⟨by decide, ?_⟩
  have heval : Rachford_Rice_solution S0 [(1 : ℚ)/2, 1/2] [2, 1/2]
      false false = Except.ok (3/4, [2/7, 4/5], [4/7, 2/5]) := by
    simp [Rachford_Rice_solution, S0, RR_xs, RR_ys]
    norm_num
  exact ((claim1_theorem S0 [(1 : ℚ)/2, 1/2] [2, 1/2] (by decide)).1
    false false (3/4) [2/7, 4/5] [4/7, 2/5] heval).2.2

/-- In-range list indexing succeeds with the `getD` value. -/
theorem idx_ok (l : List ℚ) (i : ℕ) (h : i < l.length) :
    idx l i = Except.ok (l.getD i 0) := by
  rcases hh : l[i]? with _ | v
  · rw [List.getElem?_eq_none_iff] at hh
    omega
  · simp [idx, List.get?_eq_getElem?, hh, List.getD, Option.getD]

/-- An effectful map whose every element computation succeeds returns the
pointwise map. -/
theorem mapME_ok_of_forall {a b : Type} (g : a → b) :
    ∀ (l : List a) (f : a → Except PyErr b),
      (∀ x ∈ l, f x = Except.ok (g x)) → mapME l f = Except.ok (l.map g) := by
  intro l
  induction l with
  | nil => intro f h; simp [mapME]
  | cons x xs ih =>
    intro f h
    simp [mapME, h x (by simp), ih f (fun y hy => h y (by simp [hy])),
      Bind.bind, Except.bind, pure, Except.pure]

/-- Mapping a binary element function over the common index range of two
lists of equal length is `zipWith`. -/
theorem map_range_getD2 (f : ℚ → ℚ → ℚ) :
    ∀ (a b : List ℚ), a.length = b.length →
      (List.range a.length).map (fun i => f (a.getD i 0) (b.getD i 0)) =
        List.zipWith f a b := by
  intro a
  induction a with
  | nil => intro b h; simp
  | cons x xs ih =>
    intro b h
    cases b with
    | nil => simp at h
    | cons y ys =>
      simp only [List.length_cons, List.range_succ_eq_map, List.map_cons,
        List.map_map, List.getD_cons_zero, List.zipWith_cons_cons]
      congr 1
      · have := ih ys (by simpa using h)
        rw [← this]
        rfl

/-- With only `P` and `Psat` supplied (and `P` nonzero), `K_value` takes the
pure Raoult branch. -/
theorem K_value_raoult (P ps : ℚ) (hP : P ≠ 0) :
    K_value (some P) (some ps) none none none 1 = Except.ok (ps / P) := by
  simp [K_value, truthyQ, need, pydiv, Bind.bind, Except.bind, hP]

/-- Mapping an element function over the index range of a list recovers the
mapped list. -/
theorem map_range_getD (f : ℚ → ℚ) :
    ∀ (l : List ℚ),
      (List.range l.length).map (fun i => f (l.getD i 0)) = l.map f := by
  intro l
  induction l with
  | nil => simp
  | cons x xs ih =>
    simp only [List.length_cons, List.range_succ_eq_map, List.map_cons,
      List.map_map, List.getD_cons_zero]
    rw [← ih]
    rfl

/-- Element access of a mapped list. -/
theorem getD_map (f : ℚ → ℚ) (l : List ℚ) (i : ℕ) (h : i < l.length) :
    (l.map f).getD i 0 = f (l.getD i 0) := by
  simp [List.getD, List.getElem?_eq_getElem, h]

/-- Bind of a successful `Except` computation. -/
theorem except_bind_ok {e A B : Type} (a : A) (f : A → Except e B) :
    (Except.ok a : Except e A) >>= f = f a := rfl

/-- C3: with consistent array lengths, `P` nonzero and all vapor pressures
nonzero (so that the feasibility sums are defined; a zero K would raise
`ZeroDivisionError` inside `valid_range` instead), `flash(P, zs, Psats)`
computes `Ks[i] = Psats[i]/P`, fails with the InfeasibleState error
'Solution does not exist' exactly when `sum zs[i]*Ks[i] < 1` or
`sum zs[i]/Ks[i] < 1`, and otherwise returns the `(xs, ys, V_over_F)` of the
inner-loop dispatcher — failing with the InfeasibleState error
'V_over_F is negative!' when that vapor fraction is negative, and
propagating any inner-loop failure. -/
theorem claim3_theorem (S : Solvers) (P : ℚ) (zs Psats : List ℚ)
    (hlen : zs.length = Psats.length) (hP : P ≠ 0)
    (hps : ∀ p ∈ Psats, p ≠ 0) :
    ((List.zipWith (fun z K => z * K) zs (Psats.map (fun ps => ps / P))).sum < 1 ∨
     (List.zipWith (fun z K => z / K) zs (Psats.map (fun ps => ps / P))).sum < 1 →
      flash S P zs Psats = Except.error PyErr.infeasibleNoSolution) ∧
    (¬ ((List.zipWith (fun z K => z * K) zs (Psats.map (fun ps => ps / P))).sum < 1 ∨
        (List.zipWith (fun z K => z / K) zs (Psats.map (fun ps => ps / P))).sum < 1) →
      (∀ VF xs ys,
        flash_inner_loop S zs (Psats.map (fun ps => ps / P)) none =
          Except.ok (VF, xs, ys) →
        (0 ≤ VF → flash S P zs Psats = Except.ok (xs, ys, VF)) ∧
        (VF < 0 → flash S P zs Psats = Except.error PyErr.infeasibleNegativeVF)) ∧
      (∀ e, flash_inner_loop S zs (Psats.map (fun ps => ps / P)) none =
          Except.error e →
        flash S P zs Psats = Except.error e)) := by
  have hnlc : none_and_length_check [zs, Psats] = true := by
    simp [none_and_length_check, hlen]
  have hKlen : (Psats.map (fun ps => ps / P)).length = zs.length := by
    simp [hlen]
  have hK0 : ∀ i, i < (Psats.map (fun ps => ps / P)).length →
      (Psats.map (fun ps => ps / P)).getD i 0 ≠ 0 := by
    intro i hi
    rw [List.length_map] at hi
    rw [getD_map _ _ _ hi]
    have hmem : Psats.getD i 0 ∈ Psats := by
      rw [List.getD_eq_getElem _ _ hi]
      exact List.getElem_mem hi
    exact div_ne_zero (hps _ hmem) hP
  have h1 : mapME (List.range zs.length) (fun i => do
      let ps ← idx Psats i
      K_value (some P) (some ps) none none none 1) =
      Except.ok (Psats.map (fun ps => ps / P)) := by
    rw [mapME_ok_of_forall (fun i => Psats.getD i 0 / P) _ _ ?_]
    · rw [hlen, map_range_getD (fun ps => ps / P) Psats]
    · intro i hi
      rw [List.mem_range, hlen] at hi
      simp [idx_ok _ _ hi, K_value_raoult _ _ hP, Bind.bind, Except.bind]
  have h2 : mapME (List.range (Psats.map (fun ps => ps / P)).length) (fun i => do
      let z ← idx zs i
      let K ← idx (Psats.map (fun ps => ps / P)) i
      pure (z * K)) =
      Except.ok ((List.range (Psats.map (fun ps => ps / P)).length).map
        (fun i => zs.getD i 0 * (Psats.map (fun ps => ps / P)).getD i 0)) := by
    apply mapME_ok_of_forall
    intro i hi
    rw [List.mem_range] at hi
    have hiz : i < zs.length := by omega
    simp only [idx_ok zs i hiz,
      idx_ok (Psats.map (fun ps => ps / P)) i hi, Bind.bind, Except.bind,
      pure, Except.pure]
  have h3 : mapME (List.range (Psats.map (fun ps => ps / P)).length) (fun i => do
      let z ← idx zs i
      let K ← idx (Psats.map (fun ps => ps / P)) i
      pydiv z K) =
      Except.ok ((List.range (Psats.map (fun ps => ps / P)).length).map
        (fun i => zs.getD i 0 / (Psats.map (fun ps => ps / P)).getD i 0)) := by
    apply mapME_ok_of_forall
    intro i hi
    rw [List.mem_range] at hi
    have hiz : i < zs.length := by omega
    simp only [idx_ok zs i hiz,
      idx_ok (Psats.map (fun ps => ps / P)) i hi, Bind.bind, Except.bind]
    simp only [pydiv, if_neg (hK0 i hi)]
  have hs1 : ((List.range (Psats.map (fun ps => ps / P)).length).map
      (fun i => zs.getD i 0 * (Psats.map (fun ps => ps / P)).getD i 0)).sum =
      (List.zipWith (fun z K => z * K) zs (Psats.map (fun ps => ps / P))).sum := by
    rw [hKlen, map_range_getD2 (fun z K => z * K) zs
      (Psats.map (fun ps => ps / P)) hKlen.symm]
  have hs2 : ((List.range (Psats.map (fun ps => ps / P)).length).map
      (fun i => zs.getD i 0 / (Psats.map (fun ps => ps / P)).getD i 0)).sum =
      (List.zipWith (fun z K => z / K) zs (Psats.map (fun ps => ps / P))).sum := by
    rw [hKlen, map_range_getD2 (fun z K => z / K) zs
      (Psats.map (fun ps => ps / P)) hKlen.symm]
  have hmain : flash S P zs Psats =
      (if (List.zipWith (fun z K => z * K) zs
            (Psats.map (fun ps => ps / P))).sum < 1 ∨
          (List.zipWith (fun z K => z / K) zs
            (Psats.map (fun ps => ps / P))).sum < 1
        then Except.error PyErr.infeasibleNoSolution
        else match flash_inner_loop S zs (Psats.map (fun ps => ps / P)) none with
          | Except.error e => Except.error e
          | Except.ok r =>
            if r.1 < 0 then Except.error PyErr.infeasibleNegativeVF
            else Except.ok (r.2.1, r.2.2, r.1)) := by
    unfold flash
    rw [hnlc]
    simp only [eq_self_iff_true, not_true, if_false, pure_bind]
    rw [h1]
    simp only [except_bind_ok]
    rw [h2]
    simp only [except_bind_ok]
    rw [h3]
    simp only [except_bind_ok]
    rw [hs1, hs2]
    split
    · rfl
    · rcases hfi : flash_inner_loop S zs (Psats.map (fun ps => ps / P)) none with e | r
      · simp [Bind.bind, Except.bind]
      · simp only [except_bind_ok]
        split
        · simp_all [Bind.bind, Except.bind, throw, throwThe, MonadExceptOf.throw]
        · simp_all [Bind.bind, Except.bind, pure, Except.pure]
  refine ⟨?_, ?_⟩
  · intro hbad
    rw [hmain, if_pos hbad]
  · intro hgood
    refine ⟨?_, ?_⟩
    · intro VF xs ys hfi
      constructor
      · intro hVF
        rw [hmain, if_neg hgood, hfi]
        simp [not_lt.mpr hVF]
      · intro hVF
        rw [hmain, if_neg hgood, hfi]
        simp [hVF]
    · intro e he
      rw [hmain, if_neg hgood, he]

/-- C3 witness: `flash(P=2, zs=[1/2,1/2], Psats=[2,2])` passes the
feasibility check (both sums equal 1) and returns the inner-loop result
`xs = ys = [1/2, 1/2]`, `V_over_F = 0`. -/
theorem claim3_witness :
    flash S0 2 [(1:ℚ)/2, 1/2] [2, 2] =
      Except.ok ([(1:ℚ)/2, 1/2], [(1:ℚ)/2, 1/2], 0) := by
  have hfi : flash_inner_loop S0 [(1:ℚ)/2, 1/2]
      ([(2:ℚ), 2].map (fun ps => ps / 2)) none =
      Except.ok (0, [(1:ℚ)/2, 1/2], [(1:ℚ)/2, 1/2]) := by
    norm_num [flash_inner_loop, Rachford_Rice_solution, S0, RR_xs, RR_ys]
  have hgood : ¬ ((List.zipWith (fun z K => z * K) [(1:ℚ)/2, 1/2]
        ([(2:ℚ), 2].map (fun ps => ps / 2))).sum < 1 ∨
      (List.zipWith (fun z K => z / K) [(1:ℚ)/2, 1/2]
        ([(2:ℚ), 2].map (fun ps => ps / 2))).sum < 1) := by
    norm_num
  have h := ((claim3_theorem S0 2 [(1:ℚ)/2, 1/2] [2, 2] (by decide)
      (by norm_num) (by norm_num)).2 hgood).1 0 [(1:ℚ)/2, 1/2]
      [(1:ℚ)/2, 1/2] hfi
  exact h.1 le_rfl

/-- With the property arrays at least as long as `zs`, the bubble-pressure
accumulation of the `T, VF=0` branch succeeds with the closed form. -/
theorem flash_wilson_Pbubble_ok (S : Solvers) (zs Tcs Pcs omegas : List ℚ)
    (T : ℚ) (h1 : zs.length ≤ Tcs.length) (h2 : zs.length ≤ Pcs.length)
    (h3 : zs.length ≤ omegas.length) :
    flash_wilson_Pbubble S zs Tcs Pcs omegas T =
      Except.ok (flash_wilson_Pbubble_form S zs Tcs Pcs omegas T) := by
  unfold flash_wilson_Pbubble flash_wilson_Pbubble_form
  rw [mapME_ok_of_forall (fun i => zs.getD i 0 * Pcs.getD i 0 *
      S.expApprox (537/100 * (1 + omegas.getD i 0) * (1 - Tcs.getD i 0 / T)))
      _ _ ?_]
  · simp only [except_bind_ok]
    rfl
  · intro i hi
    rw [List.mem_range] at hi
    simp only [idx_ok zs i hi, idx_ok Pcs i (by omega),
      idx_ok Tcs i (by omega), idx_ok omegas i (by omega), Bind.bind,
      Except.bind, pure, Except.pure]

/-- C7: `flash_wilson` called with `T` supplied and `VF = 0` computes the
closed-form bubble pressure
`P_bubble = sum_i zs[i]*Pcs[i]*exp(5.37*(1+omegas[i])*(1-Tcs[i]/T))` and
recurses into the `T`-and-`P` solve mode at that pressure (first conjunct);
consequently every successful result's pressure component equals that closed
form (second conjunct).  The hypotheses require the per-species property
arrays to cover every species of `zs` (otherwise the accumulation raises
`IndexError`); the fuel argument only bounds the embedding's recursion. -/
theorem claim7_theorem (S : Solvers) (fuel : ℕ) (zs Tcs Pcs omegas : List ℚ)
    (T : ℚ) (h1 : zs.length ≤ Tcs.length) (h2 : zs.length ≤ Pcs.length)
    (h3 : zs.length ≤ omegas.length) :
    flash_wilson S (fuel + 2) zs Tcs Pcs omegas (some T) none (some 0) =
      flash_wilson S (fuel + 1) zs Tcs Pcs omegas (some T)
        (some (flash_wilson_Pbubble_form S zs Tcs Pcs omegas T)) none ∧
    ∀ r, flash_wilson S (fuel + 2) zs Tcs Pcs omegas (some T) none (some 0) =
        Except.ok r →
      r.2.1 = flash_wilson_Pbubble_form S zs Tcs Pcs omegas T := by
  have hstep : flash_wilson S (fuel + 2) zs Tcs Pcs omegas (some T) none
      (some 0) =
      flash_wilson S (fuel + 1) zs Tcs Pcs omegas (some T)
        (some (flash_wilson_Pbubble_form S zs Tcs Pcs omegas T)) none := by
    simp only [flash_wilson]
    rw [flash_wilson_Pbubble_ok S zs Tcs Pcs omegas T h1 h2 h3]
    simp only [except_bind_ok, if_true, ite_true]
  refine ⟨hstep, ?_⟩
  intro r hr
  rw [hstep] at hr
  simp only [flash_wilson, Bind.bind, Except.bind, pure, Except.pure] at hr
  split at hr
  · exact absurd hr (by simp)
  · split at hr
    · exact absurd hr (by simp)
    · simp only [Except.ok.injEq] at hr
      rw [← hr]

/-- C7 witness: a two-species bubble-point flash at `T = 300` with the
concrete oracle bundle: the bubble pressure is `200` and the returned
pressure component equals the closed form. -/
theorem claim7_witness :
    flash_wilson S0 3 [(1:ℚ)/2, 1/2] [300, 400] [100, 300] [0, 0] (some 300)
        none (some 0) =
      Except.ok (300, 200, 0, [(1:ℚ)/2, 1/2], [(1:ℚ)/4, 3/4]) ∧
    ((300 : ℚ), (200 : ℚ), (0 : ℚ), [(1:ℚ)/2, 1/2],
        [(1:ℚ)/4, 3/4]).2.1 =
      flash_wilson_Pbubble_form S0 [(1:ℚ)/2, 1/2] [300, 400] [100, 300] [0, 0]
        300 := by
  have heval : flash_wilson S0 3 [(1:ℚ)/2, 1/2] [300, 400] [100, 300] [0, 0]
      (some 300) none (some 0) =
      Except.ok (300, 200, 0, [(1:ℚ)/2, 1/2], [(1:ℚ)/4, 3/4]) := by
    norm_num [flash_wilson, flash_wilson_Pbubble, mapME, idx, Wilson_K_value,
      flash_inner_loop, S0, analytical_xs, RR_ys, Bind.bind, Except.bind,
      pure, Except.pure, List.range_succ]
  exact ⟨heval, (claim7_theorem S0 1 [(1:ℚ)/2, 1/2] [300, 400] [100, 300] [0, 0]
    300 (by decide) (by decide) (by decide)).2 _ heval⟩
